import Mathlib

/-!
Verification of the gungameonline server (`src/server/_gungameserver`).

The Rust state and domain logic are shallowly embedded:
* `HashMap` fields become association lists (`List (κ × α)`) with
  first-match lookup; in-place mutation through `get_mut` becomes
  `updateVal`, `HashMap::insert` becomes `insertKey`, `HashMap::remove`
  becomes `removeKey`.
* `SystemTime` instants and `f32` durations/rates become exact rationals;
  `Duration::as_secs()` truncation becomes `asSecs` (floor to ℕ).
* Functions taking `&mut Lobby` return the resulting `Lobby` paired with
  the Rust return value; early-`return` paths return the lobby unchanged,
  exactly as the source performs no mutation before those returns.
-/

namespace GunGame

section AssocMap

variable {κ : Type} {α : Type} [DecidableEq κ]

/-- First-match association list lookup, modelling `HashMap::get`. -/
def lookupKey : List (κ × α) → κ → Option α
  | [], _ => none
  | e :: rest, k => if e.1 = k then some e.2 else lookupKey rest k

/-- Remove every entry with the given key, modelling `HashMap::remove`. -/
def removeKey : List (κ × α) → κ → List (κ × α)
  | [], _ => []
  | e :: rest, k => if e.1 = k then removeKey rest k else e :: removeKey rest k

/-- Insert, replacing any previous entry, modelling `HashMap::insert`. -/
def insertKey (m : List (κ × α)) (k : κ) (v : α) : List (κ × α) :=
  removeKey m k ++ [(k, v)]

/-- Replace the value stored at a key in place, modelling mutation
through `HashMap::get_mut`. -/
def updateVal : List (κ × α) → κ → (α → α) → List (κ × α)
  | [], _, _ => []
  | e :: rest, k, f =>
    if e.1 = k then (e.1, f e.2) :: updateVal rest k f
    else e :: updateVal rest k f

end AssocMap

/-- Weapon data from `utils/weapondb.rs` (`WeaponData`); the `f32` fields
(`fire_rate`, `range`, `reload_time`) are modelled as rationals. -/
structure WeaponData where
  id : Nat
  name : String
  damage : Nat
  fire_rate : ℚ
  range : ℚ
  reload_time : ℚ
  ammo : Nat
  deriving Repr, DecidableEq

/-- Immutable weapon database (`utils/weapondb.rs`, `WeaponDb`). -/
structure WeaponDb where
  weapons : List (Nat × WeaponData)
  deriving Repr, DecidableEq

/-- `WeaponDb::get`. -/
def WeaponDb.get (db : WeaponDb) (i : Nat) : Option WeaponData :=
  lookupKey db.weapons i

/-- `WeaponDb::contains`. -/
def WeaponDb.contains (db : WeaponDb) (i : Nat) : Bool :=
  (lookupKey db.weapons i).isSome

/-- `WeaponDb::load`: the hardcoded catalog. -/
def WeaponDb.load : WeaponDb :=
  { weapons :=
      [ (1, { id := 1, name := "Golden Friend", damage := 20, fire_rate := 4,
              range := 100, reload_time := 1, ammo := 20 }),
        (2, { id := 2, name := "Prototype", damage := 30, fire_rate := 2,
              range := 150, reload_time := 3/2, ammo := 8 }),
        (3, { id := 3, name := "Combat Knife", damage := 50, fire_rate := 3/2,
              range := 3, reload_time := 0, ammo := 0 }) ] }

/-- `WeaponDb::default_weapon_id`. -/
def WeaponDb.default_weapon_id : Nat := 1

/-- Player state (`state/lobby.rs`, `Player`). `SystemTime` instants are
rational seconds; `SocketAddr` is an opaque `Nat` token. -/
structure Player where
  id : Nat
  name : String
  position : ℚ × ℚ × ℚ
  rotation : ℚ × ℚ × ℚ
  last_update : ℚ
  current_health : Nat
  max_health : Nat
  current_weapon_id : Nat
  current_ammo : Nat
  max_ammo : Nat
  is_reloading : Bool
  reload_end_time : Option ℚ
  last_shot_time : ℚ
  deriving Repr, DecidableEq

/-- Snapshot of the delta-tracked fields (`state/lobby.rs`, `PlayerSyncState`). -/
structure PlayerSyncState where
  id : Nat
  health : Nat
  max_health : Nat
  current_weapon_id : Nat
  current_ammo : Nat
  max_ammo : Nat
  is_reloading : Bool
  deriving Repr, DecidableEq

/-- `Player::to_sync_state`. -/
def Player.to_sync_state (p : Player) : PlayerSyncState :=
  { id := p.id, health := p.current_health, max_health := p.max_health,
    current_weapon_id := p.current_weapon_id, current_ammo := p.current_ammo,
    max_ammo := p.max_ammo, is_reloading := p.is_reloading }

/-- Per-lobby state (`state/lobby.rs`, `Lobby`). -/
structure Lobby where
  code : String
  players : List (Nat × Player)
  client_addresses : List (Nat × Nat)
  max_players : Nat
  scene : String
  dirty_players : List Nat
  last_sync_state : List (Nat × PlayerSyncState)
  deriving Repr, DecidableEq

/-- `Lobby::new`. -/
def Lobby.new (code : String) (max_players : Nat) (scene : String) : Lobby :=
  { code := code, players := [], client_addresses := [],
    max_players := max_players, scene := scene,
    dirty_players := [], last_sync_state := [] }

/-- `Lobby::mark_dirty`: push the id unless it is already marked. -/
def Lobby.mark_dirty (lobby : Lobby) (player_id : Nat) : Lobby :=
  if player_id ∈ lobby.dirty_players then lobby
  else { lobby with dirty_players := lobby.dirty_players ++ [player_id] }

/-- `Lobby::clear_dirty`. -/
def Lobby.clear_dirty (lobby : Lobby) : Lobby :=
  { lobby with dirty_players := [] }

/-- Overwrite one player's state in place, as mutation through
`lobby.players.get_mut(&id)` does. -/
def setPlayerState (lobby : Lobby) (k : Nat) (p2 : Player) : Lobby :=
  { lobby with players := updateVal lobby.players k (fun _ => p2) }

/-- `domain/logic.rs`, `try_shoot`. `now` is the sampled `SystemTime::now()`;
`duration_since` fails when `now` is earlier than `last_shot_time`. -/
def try_shoot (lobby : Lobby) (weapons : WeaponDb) (player_id : Nat)
    (now : ℚ) : Lobby × Except String Bool :=
  match lookupKey lobby.players player_id with
  | none => (lobby, Except.error "Player not found")
  | some player =>
    if player.is_reloading then (lobby, Except.ok false)
    else if player.current_ammo = 0 then (lobby, Except.ok false)
    else
      match weapons.get player.current_weapon_id with
      | none => (lobby, Except.error "Invalid weapon")
      | some weapon =>
        if now < player.last_shot_time then (lobby, Except.error "Time error")
        else if now - player.last_shot_time < 1 / weapon.fire_rate then
          (lobby, Except.ok false)
        else
          ((setPlayerState lobby player_id
              { player with current_ammo := player.current_ammo - 1,
                            last_shot_time := now }).mark_dirty player_id,
            Except.ok true)

/-- `domain/logic.rs`, `apply_damage`. `saturating_sub` on `u32` is
truncated subtraction on `Nat`. -/
def apply_damage (lobby : Lobby) (target_id : Nat) (damage : Nat) :
    Lobby × Except String Unit :=
  match lookupKey lobby.players target_id with
  | none => (lobby, Except.error "Player not found")
  | some player =>
    if damage = 0 ∨ damage > 100 then
      (lobby, Except.error "Invalid damage amount")
    else
      ((setPlayerState lobby target_id
          { player with current_health := player.current_health - damage
            }).mark_dirty target_id,
        Except.ok ())

/-- `domain/logic.rs`, `start_reload`. -/
def start_reload (lobby : Lobby) (weapons : WeaponDb) (player_id : Nat)
    (now : ℚ) : Lobby × Except String Unit :=
  match lookupKey lobby.players player_id with
  | none => (lobby, Except.error "Player not found")
  | some player =>
    if player.is_reloading ∨ player.current_ammo = player.max_ammo then
      (lobby, Except.error "Cannot reload")
    else
      match weapons.get player.current_weapon_id with
      | none => (lobby, Except.error "Weapon not found")
      | some weapon =>
        ((setPlayerState lobby player_id
            { player with is_reloading := true,
                          reload_end_time := some (now + weapon.reload_time)
              }).mark_dirty player_id,
          Except.ok ())

/-- Condition under which `update_reload_states` completes a reload. -/
def reloadDue (now : ℚ) (p : Player) : Bool :=
  p.is_reloading &&
    (match p.reload_end_time with
      | some e => decide (e ≤ now)
      | none => false)

/-- Effect of a completed reload on one player. -/
def completeReload (p : Player) : Player :=
  { p with current_ammo := p.max_ammo, is_reloading := false,
           reload_end_time := none }

/-- `domain/logic.rs`, `update_reload_states`: complete every due reload,
collect the completed ids, then mark them dirty. -/
def update_reload_states (lobby : Lobby) (now : ℚ) : Lobby × List Nat :=
  let completed := lobby.players.filterMap
    (fun kp => if reloadDue now kp.2 then some kp.2.id else none)
  let players2 := lobby.players.map
    (fun kp => (kp.1, if reloadDue now kp.2 then completeReload kp.2 else kp.2))
  (completed.foldl (fun l i => l.mark_dirty i)
    { lobby with players := players2 }, completed)

/-- `domain/logic.rs`, `switch_weapon`. -/
def switch_weapon (lobby : Lobby) (weapons : WeaponDb) (player_id : Nat)
    (weapon_id : Nat) : Lobby × Except String Unit :=
  match lookupKey lobby.players player_id with
  | none => (lobby, Except.error "Player not found")
  | some player =>
    match weapons.get weapon_id with
    | none => (lobby, Except.error "Invalid weapon")
    | some weapon =>
      ((setPlayerState lobby player_id
          { player with current_weapon_id := weapon_id,
                        current_ammo := weapon.ammo,
                        max_ammo := weapon.ammo,
                        is_reloading := false,
                        reload_end_time := none }).mark_dirty player_id,
        Except.ok ())

/-- The `Player` literal `add_player` builds: full health, the default
weapon with a full magazine, no reload in progress. -/
def newPlayer (player_id : Nat) (name : String) (default_weapon_id : Nat)
    (weapon : WeaponData) (now : ℚ) : Player :=
  { id := player_id, name := name, position := (0, 1, 0),
    rotation := (0, 0, 0), last_update := now,
    current_health := 100, max_health := 100,
    current_weapon_id := default_weapon_id,
    current_ammo := weapon.ammo, max_ammo := weapon.ammo,
    is_reloading := false, reload_end_time := none,
    last_shot_time := now }

/-- `domain/lobbies.rs`, `add_player`. -/
def add_player (lobby : Lobby) (player_id : Nat) (name : String)
    (default_weapon_id : Nat) (weapon_data : WeaponDb) (now : ℚ) :
    Lobby × Except String Unit :=
  if lobby.players.length ≥ lobby.max_players then
    (lobby, Except.error "Lobby is full")
  else if (lookupKey lobby.players player_id).isSome then
    (lobby, Except.error "Player already exists")
  else
    match weapon_data.get default_weapon_id with
    | none => (lobby, Except.error "Invalid default weapon")
    | some weapon =>
      (({ lobby with players :=
                        insertKey lobby.players player_id
                          (newPlayer player_id name default_weapon_id
                            weapon now) }).mark_dirty player_id,
        Except.ok ())

/-- `domain/lobbies.rs`, `remove_player`: drop the player together with
its address and last-sync entries. -/
def remove_player (lobby : Lobby) (player_id : Nat) : Lobby :=
  { lobby with players := removeKey lobby.players player_id,
               client_addresses := removeKey lobby.client_addresses player_id,
               last_sync_state := removeKey lobby.last_sync_state player_id }

/-- `domain/lobbies.rs`, `update_position`. -/
def update_position (lobby : Lobby) (player_id : Nat) (position : ℚ × ℚ × ℚ)
    (rotation : ℚ × ℚ × ℚ) (now : ℚ) : Lobby × Except String Unit :=
  match lookupKey lobby.players player_id with
  | none => (lobby, Except.error "Player not found")
  | some player =>
    ((setPlayerState lobby player_id
        { player with position := position, rotation := rotation,
                      last_update := now }).mark_dirty player_id,
      Except.ok ())

/-- `Duration::as_secs()`: whole seconds, truncated. Durations produced
by `duration_since` are nonnegative, where truncation and floor agree. -/
def asSecs (d : ℚ) : Nat := (⌊d⌋).toNat

/-- Condition under which `cleanup_inactive` evicts an entry: real id,
`duration_since` succeeded, and whole elapsed seconds exceed the timeout. -/
def inactiveDue (now : ℚ) (timeout_secs : Nat) (k : Nat) (p : Player) : Bool :=
  if k = 999 then false
  else if p.last_update ≤ now then
    decide (asSecs (now - p.last_update) > timeout_secs)
  else false

/-- The `inactive_players` list collected by `cleanup_inactive`. -/
def inactivePlayers (lobby : Lobby) (timeout_secs : Nat) (now : ℚ) :
    List Nat :=
  lobby.players.filterMap
    (fun kp => if inactiveDue now timeout_secs kp.1 kp.2 then some kp.1 else none)

/-- `domain/lobbies.rs`, `cleanup_inactive`: collect inactive real players,
then remove each via `remove_player`. -/
def cleanup_inactive (lobby : Lobby) (timeout_secs : Nat) (now : ℚ) :
    Lobby × List Nat :=
  ((inactivePlayers lobby timeout_secs now).foldl
      (fun l i => remove_player l i) lobby,
    inactivePlayers lobby timeout_secs now)

/-- Commands sent to a lobby tick loop (`state/commands.rs`, `LobbyCommand`). -/
inductive LobbyCommand where
  | PlayerJoin (player_id : Nat) (name : String) (addr : Nat)
  | PlayerLeave (player_id : Nat)
  | PositionUpdate (player_id : Nat) (position : ℚ × ℚ × ℚ)
      (rotation : ℚ × ℚ × ℚ) (addr : Nat)
  | Shoot (player_id : Nat) (target_id : Nat)
  | Reload (player_id : Nat)
  | WeaponSwitch (player_id : Nat) (weapon_id : Nat)
  | Heartbeat (player_id : Nat) (addr : Nat)
  deriving Repr, DecidableEq

/-- The player id of a `PositionUpdate`, `none` for every other command. -/
def posPlayer? : LobbyCommand → Option Nat
  | LobbyCommand.PositionUpdate player_id _ _ _ => some player_id
  | _ => none

/-- Whether a command is a `PositionUpdate`. -/
def isPos (c : LobbyCommand) : Bool := (posPlayer? c).isSome

/-- Whether a command is a `PositionUpdate` for the given player. -/
def isPosFor (pid : Nat) (c : LobbyCommand) : Bool :=
  decide (posPlayer? c = some pid)

/-- Drain loop of `drain_and_coalesce` (`state/commands.rs`): position
updates go into a latest-only map keyed by player id, everything else is
appended in arrival order. -/
def coalesceGo : List LobbyCommand → List (Nat × LobbyCommand) →
    List LobbyCommand → List LobbyCommand
  | [], latest, others => others ++ latest.map Prod.snd
  | c :: rest, latest, others =>
    match posPlayer? c with
    | some pid => coalesceGo rest (insertKey latest pid c) others
    | none => coalesceGo rest latest (others ++ [c])

/-- `state/commands.rs`, `drain_and_coalesce`, applied to the queue's
arrival-ordered contents. -/
def drain_and_coalesce (cmds : List LobbyCommand) : List LobbyCommand :=
  coalesceGo cmds [] []

/-- Sync events (`utils/buffers.rs`, `SyncEvent`). -/
inductive SyncEvent where
  | HealthChanged (player_id : Nat) (health : Nat)
  | AmmoChanged (player_id : Nat) (ammo : Nat)
  | MaxAmmoChanged (player_id : Nat) (max_ammo : Nat)
  | WeaponChanged (player_id : Nat) (weapon_id : Nat)
  | ReloadStateChanged (player_id : Nat) (is_reloading : Bool)
  | PositionChanged (player_id : Nat) (position : ℚ × ℚ × ℚ)
      (rotation : ℚ × ℚ × ℚ)
  deriving Repr, DecidableEq

/-- Events emitted for one dirty player by `collect_dirty_events`
(`tick/delta_sync.rs`): a field is included when the previous snapshot
differs, and a missing snapshot counts as differing on every field.
Max-health changes are compared but never emitted, as in the source. -/
def syncFieldEvents (pid : Nat) (last : Option PlayerSyncState) (p : Player) :
    List SyncEvent :=
  (if (last.map (fun l => decide (l.health ≠ p.current_health))).getD true then
    [SyncEvent.HealthChanged pid p.current_health] else [])
  ++ (if (last.map (fun l => decide (l.current_ammo ≠ p.current_ammo))).getD true then
    [SyncEvent.AmmoChanged pid p.current_ammo] else [])
  ++ (if (last.map (fun l => decide (l.max_ammo ≠ p.max_ammo))).getD true then
    [SyncEvent.MaxAmmoChanged pid p.max_ammo] else [])
  ++ (if (last.map (fun l => decide (l.current_weapon_id ≠ p.current_weapon_id))).getD true then
    [SyncEvent.WeaponChanged pid p.current_weapon_id] else [])
  ++ (if (last.map (fun l => decide (l.is_reloading ≠ p.is_reloading))).getD true then
    [SyncEvent.ReloadStateChanged pid p.is_reloading] else [])

/-- Loop of `collect_dirty_events` over the dirty ids, updating
`last_sync_state` as it goes. -/
def collectGo : List Nat → Lobby → List SyncEvent → Lobby × List SyncEvent
  | [], lobby, events => (lobby, events)
  | pid :: rest, lobby, events =>
    match lookupKey lobby.players pid with
    | none => collectGo rest lobby events
    | some p =>
      collectGo rest
        { lobby with last_sync_state :=
            insertKey lobby.last_sync_state pid p.to_sync_state }
        (events ++ syncFieldEvents pid (lookupKey lobby.last_sync_state pid) p)

/-- `tick/delta_sync.rs`, `collect_dirty_events`. -/
def collect_dirty_events (lobby : Lobby) : Lobby × List SyncEvent :=
  collectGo lobby.dirty_players lobby []

/-- The `"type"` field of the datagram built for a sync event by
`broadcast_state_events` (`tick/lobby_tick.rs`); `none` for
`PositionChanged`, which that function skips. -/
def statePacketType : SyncEvent → Option String
  | SyncEvent.HealthChanged _ _ => some "player_state_update"
  | SyncEvent.AmmoChanged _ _ => some "player_state_update"
  | SyncEvent.MaxAmmoChanged _ _ => some "player_state_update"
  | SyncEvent.WeaponChanged _ _ => some "weapon_switched"
  | SyncEvent.ReloadStateChanged _ r =>
      some (if r then "reload_started" else "reload_finished")
  | SyncEvent.PositionChanged _ _ _ => none

/-- The `Shoot` arm of `process_command` (`tick/lobby_tick.rs`): gate the
shot with `try_shoot`; on success look the shooter back up, fetch its
weapon's damage, and apply it to `target_id`, discarding any error. -/
def process_command_shoot (lobby : Lobby) (weapons : WeaponDb)
    (player_id target_id : Nat) (now : ℚ) : Lobby :=
  match try_shoot lobby weapons player_id now with
  | (l1, Except.ok true) =>
    (match lookupKey l1.players player_id with
      | some p =>
        (match weapons.get p.current_weapon_id with
          | some w => (apply_damage l1 target_id w.damage).1
          | none => l1)
      | none => l1)
  | (l1, _) => l1

/-- A handle to a lobby in the registry (`state/server_state.rs`,
`LobbyHandle`); the command sender is an opaque `Nat` token and the task
handle is not modelled. -/
structure LobbyHandle where
  lobby : Lobby
  command_tx : Nat
  deriving Repr, DecidableEq

/-- Registry of lobbies (`state/server_state.rs`, `ServerState`). -/
structure ServerState where
  lobbies : List (String × LobbyHandle)
  next_player_id : Nat
  deriving Repr, DecidableEq

/-- `ServerState::new`. -/
def ServerState.new : ServerState :=
  { lobbies := [], next_player_id := 1 }

/-- `ServerState::lobby_exists`. -/
def ServerState.lobby_exists (s : ServerState) (code : String) : Bool :=
  (lookupKey s.lobbies code).isSome

/-- `ServerState::insert_lobby`: a plain `DashMap::insert`, returning
nothing. -/
def ServerState.insert_lobby (s : ServerState) (code : String)
    (handle : LobbyHandle) : ServerState :=
  { s with lobbies := insertKey s.lobbies code handle }

/-- `ServerState::remove_lobby`. -/
def ServerState.remove_lobby (s : ServerState) (code : String) :
    ServerState × Option LobbyHandle :=
  ({ s with lobbies := removeKey s.lobbies code }, lookupKey s.lobbies code)

/-- Registry-relevant part of `create_lobby_with_tick` (`server.rs`):
refuse when the code already exists, otherwise build a fresh lobby and
register its handle. The spawned tick task is represented only by the
handle's sender token. -/
def create_lobby_with_tick (s : ServerState) (code : String)
    (max_players : Nat) (scene : String) (tx : Nat) :
    ServerState × Except String Unit :=
  if s.lobby_exists code then (s, Except.error "Lobby already exists")
  else
    (s.insert_lobby code
      { lobby := Lobby.new code max_players scene, command_tx := tx },
      Except.ok ())

/-- Run a sequence of `Shoot` gate attempts by one player at the given
times, counting how many are accepted. -/
def runShoots (weapons : WeaponDb) (player_id : Nat) :
    Lobby → List ℚ → Lobby × Nat
  | lobby, [] => (lobby, 0)
  | lobby, t :: ts =>
    let r := try_shoot lobby weapons player_id t
    let rest := runShoots weapons player_id r.1 ts
    (rest.1, (match r.2 with | Except.ok true => 1 | _ => 0) + rest.2)

/-- The ammo invariant P1: every player's current ammo is bounded by its
magazine. -/
def AmmoInv (lobby : Lobby) : Prop :=
  ∀ kp ∈ lobby.players, (kp : Nat × Player).2.current_ammo ≤ kp.2.max_ammo

/-- The shot a successful `try_shoot` records for the shooter. -/
def shotPlayer (p : Player) (now : ℚ) : Player :=
  { p with current_ammo := p.current_ammo - 1, last_shot_time := now }

/-- The latest-only position map left at the end of the drain loop,
mirroring the contents of `latest_positions` in `drain_and_coalesce`. -/
def finalLatest : List LobbyCommand → List (Nat × LobbyCommand) →
    List (Nat × LobbyCommand)
  | [], latest => latest
  | c :: rest, latest =>
    match posPlayer? c with
    | some pid => finalLatest rest (insertKey latest pid c)
    | none => finalLatest rest latest

/-- Distinctness of the keys of an association list. -/
def keysND {α : Type} (m : List (Nat × α)) : Prop :=
  (m.map Prod.fst).Nodup

/-- The catalog entry for weapon 1 (Golden Friend), for concrete instances. -/
def goldenFriend : WeaponData :=
  { id := 1, name := "Golden Friend", damage := 20, fire_rate := 4,
    range := 100, reload_time := 1, ammo := 20 }

/-- A freshly spawned player holding weapon 1 with a full magazine, used
as the concrete instance in witnesses and counterexamples. -/
def playerTEST : Player :=
  { id := 1, name := "P1", position := (0, 1, 0), rotation := (0, 0, 0),
    last_update := 0, current_health := 100, max_health := 100,
    current_weapon_id := 1, current_ammo := 20, max_ammo := 20,
    is_reloading := false, reload_end_time := none, last_shot_time := 0 }

/-- A concrete lobby containing only `playerTEST`. -/
def lobbyTEST : Lobby :=
  { Lobby.new "TEST" 4 "world" with players := [(1, playerTEST)] }

/-- The state `start_reload` records for the player: reloading, ending at
the given instant. -/
def reloadingPlayer (p : Player) (e : ℚ) : Player :=
  { p with is_reloading := true, reload_end_time := some e }

/-- The catalog entry for weapon 2 (Prototype), for concrete instances. -/
def prototypeW : WeaponData :=
  { id := 2, name := "Prototype", damage := 30, fire_rate := 2,
    range := 150, reload_time := 3/2, ammo := 8 }

/-- Like `playerTEST` but with a part-spent magazine (5 of 20). -/
def playerLOW : Player :=
  { playerTEST with current_ammo := 5 }

/-- A concrete lobby containing only `playerLOW`. -/
def lobbyLOW : Lobby :=
  { Lobby.new "TEST" 4 "world" with players := [(1, playerLOW)] }

/-- A registry handle for the lobby code TEST with sender token 1. -/
def handleA : LobbyHandle :=
  { lobby := Lobby.new "TEST" 4 "world", command_tx := 1 }

/-- A second, distinct handle for the same code with sender token 2. -/
def handleB : LobbyHandle :=
  { lobby := Lobby.new "TEST" 4 "world", command_tx := 2 }

/-- A registry already holding `handleA` under code TEST. -/
def stateC3 : ServerState :=
  { lobbies := [("TEST", handleA)], next_player_id := 1 }

/-- `lobbyTEST` with player 1 freshly marked dirty and no last-sync
snapshot, as right after a join. -/
def lobbyDIRTY : Lobby :=
  { lobbyTEST with dirty_players := [1] }

section AssocMapLemmas

variable {κ : Type} {α : Type} [DecidableEq κ]

theorem lookupKey_removeKey_self (m : List (κ × α)) (k : κ) :
    lookupKey (removeKey m k) k = none := by
  induction m with
  | nil => rfl
  | cons e rest ih =>
    by_cases h : e.1 = k <;> simp [removeKey, lookupKey, h, ih]

theorem lookupKey_removeKey_ne (m : List (κ × α)) (k k2 : κ) (h : k2 ≠ k) :
    lookupKey (removeKey m k) k2 = lookupKey m k2 := by
  induction m with
  | nil => rfl
  | cons e rest ih =>
    obtain ⟨a, b⟩ := e
    have hk : k ≠ k2 := fun hc => h hc.symm
    by_cases he : a = k
    · simp [removeKey, lookupKey, he, hk, ih]
    · by_cases he2 : a = k2 <;> simp [removeKey, lookupKey, he, he2, h, ih]

theorem lookupKey_append (m1 m2 : List (κ × α)) (k : κ) :
    lookupKey (m1 ++ m2) k =
      ((lookupKey m1 k).rec (lookupKey m2 k) (fun v => some v) : Option α) := by
  induction m1 with
  | nil => rfl
  | cons e rest ih =>
    by_cases h : e.1 = k <;> simp [lookupKey, h, ih]

theorem lookupKey_insertKey_self (m : List (κ × α)) (k : κ) (v : α) :
    lookupKey (insertKey m k v) k = some v := by
  rw [insertKey, lookupKey_append, lookupKey_removeKey_self]
  simp [lookupKey]

theorem lookupKey_insertKey_ne (m : List (κ × α)) (k k2 : κ) (v : α)
    (h : k2 ≠ k) : lookupKey (insertKey m k v) k2 = lookupKey m k2 := by
  rw [insertKey, lookupKey_append, lookupKey_removeKey_ne m k k2 h]
  cases hm : lookupKey m k2 with
  | none => simp [lookupKey, Ne.symm h]
  | some v2 => simp

theorem lookupKey_updateVal_self (m : List (κ × α)) (k : κ) (f : α → α) :
    lookupKey (updateVal m k f) k = (lookupKey m k).map f := by
  induction m with
  | nil => rfl
  | cons e rest ih =>
    by_cases h : e.1 = k <;> simp [updateVal, lookupKey, h, ih]

theorem lookupKey_updateVal_ne (m : List (κ × α)) (k k2 : κ) (f : α → α)
    (h : k2 ≠ k) : lookupKey (updateVal m k f) k2 = lookupKey m k2 := by
  induction m with
  | nil => rfl
  | cons e rest ih =>
    obtain ⟨a, b⟩ := e
    have hk : k ≠ k2 := fun hc => h hc.symm
    by_cases he : a = k
    · simp [updateVal, lookupKey, he, hk, ih]
    · by_cases he2 : a = k2 <;> simp [updateVal, lookupKey, he, he2, h, ih]

theorem lookupKey_mem (m : List (κ × α)) (k : κ) (v : α)
    (h : lookupKey m k = some v) : (k, v) ∈ m := by
  induction m with
  | nil => simp [lookupKey] at h
  | cons e rest ih =>
    obtain ⟨a, b⟩ := e
    by_cases he : a = k
    · simp [lookupKey, he] at h
      simp [he, h]
    · simp [lookupKey, he] at h
      exact List.mem_cons_of_mem _ (ih h)

theorem mem_removeKey (m : List (κ × α)) (k : κ) (e : κ × α)
    (h : e ∈ removeKey m k) : e ∈ m := by
  induction m with
  | nil => simp [removeKey] at h
  | cons e2 rest ih =>
    by_cases he : e2.1 = k
    · simp [removeKey, he] at h
      exact List.mem_cons_of_mem _ (ih h)
    · simp [removeKey, he] at h
      rcases h with h | h
      · exact h ▸ List.mem_cons_self _ _
      · exact List.mem_cons_of_mem _ (ih h)

theorem mem_insertKey (m : List (κ × α)) (k : κ) (v : α) (e : κ × α)
    (h : e ∈ insertKey m k v) : e ∈ m ∨ e = (k, v) := by
  rw [insertKey] at h
  rcases List.mem_append.mp h with h | h
  · exact Or.inl (mem_removeKey m k e h)
  · simp at h
    exact Or.inr h

theorem mem_updateVal (m : List (κ × α)) (k : κ) (f : α → α) (e : κ × α)
    (h : e ∈ updateVal m k f) : e ∈ m ∨ ∃ w, (k, w) ∈ m ∧ e = (k, f w) := by
  induction m with
  | nil => simp [updateVal] at h
  | cons e2 rest ih =>
    by_cases he : e2.1 = k
    · simp [updateVal, he] at h
      rcases h with h | h
      · refine Or.inr ⟨e2.2, ?_, h⟩
        rw [← he]
        exact List.mem_cons_self _ _
      · rcases ih h with h2 | ⟨w, hw, hew⟩
        · exact Or.inl (List.mem_cons_of_mem _ h2)
        · exact Or.inr ⟨w, List.mem_cons_of_mem _ hw, hew⟩
    · simp [updateVal, he] at h
      rcases h with h | h
      · exact Or.inl (h ▸ List.mem_cons_self _ _)
      · rcases ih h with h2 | ⟨w, hw, hew⟩
        · exact Or.inl (List.mem_cons_of_mem _ h2)
        · exact Or.inr ⟨w, List.mem_cons_of_mem _ hw, hew⟩

theorem lookupKey_map_value {β : Type} (m : List (κ × α)) (g : α → β)
    (k : κ) :
    lookupKey (m.map (fun kp => (kp.1, g kp.2))) k =
      (lookupKey m k).map g := by
  induction m with
  | nil => rfl
  | cons e rest ih =>
    by_cases h : e.1 = k <;> simp [lookupKey, h, ih]

end AssocMapLemmas

theorem mark_dirty_players (l : Lobby) (i : Nat) :
    (l.mark_dirty i).players = l.players := by
  unfold Lobby.mark_dirty
  split <;> rfl

theorem mark_dirty_last_sync (l : Lobby) (i : Nat) :
    (l.mark_dirty i).last_sync_state = l.last_sync_state := by
  unfold Lobby.mark_dirty
  split <;> rfl

theorem mem_mark_dirty_self (l : Lobby) (i : Nat) :
    i ∈ (l.mark_dirty i).dirty_players := by
  unfold Lobby.mark_dirty
  split
  · assumption
  · simp

theorem mem_mark_dirty_of_mem (l : Lobby) (i j : Nat)
    (h : j ∈ l.dirty_players) : j ∈ (l.mark_dirty i).dirty_players := by
  unfold Lobby.mark_dirty
  split
  · exact h
  · simp [h]

theorem lookup_setPlayerState_self (l : Lobby) (k : Nat) (p2 : Player) :
    lookupKey (setPlayerState l k p2).players k =
      (lookupKey l.players k).map (fun _ => p2) := by
  simp [setPlayerState, lookupKey_updateVal_self]

theorem lookup_setPlayerState_ne (l : Lobby) (k k2 : Nat) (p2 : Player)
    (h : k2 ≠ k) :
    lookupKey (setPlayerState l k p2).players k2 = lookupKey l.players k2 := by
  simp [setPlayerState, lookupKey_updateVal_ne _ _ _ _ h]

theorem try_shoot_eq (lobby : Lobby) (weapons : WeaponDb) (pid : Nat)
    (now : ℚ) (p : Player) (hp : lookupKey lobby.players pid = some p) :
    try_shoot lobby weapons pid now =
      if p.is_reloading = true then (lobby, Except.ok false)
      else if p.current_ammo = 0 then (lobby, Except.ok false)
      else
        match weapons.get p.current_weapon_id with
        | none => (lobby, Except.error "Invalid weapon")
        | some weapon =>
          if now < p.last_shot_time then (lobby, Except.error "Time error")
          else if now - p.last_shot_time < 1 / weapon.fire_rate then
            (lobby, Except.ok false)
          else
            ((setPlayerState lobby pid (shotPlayer p now)).mark_dirty pid,
              Except.ok true) := by
  unfold try_shoot
  rw [hp]
  rfl

theorem try_shoot_success_state (lobby : Lobby) (weapons : WeaponDb)
    (pid : Nat) (now : ℚ) (p : Player)
    (hp : lookupKey lobby.players pid = some p)
    (hs : (try_shoot lobby weapons pid now).2 = Except.ok true) :
    (try_shoot lobby weapons pid now).1 =
      (setPlayerState lobby pid (shotPlayer p now)).mark_dirty pid := by
  rw [try_shoot_eq lobby weapons pid now p hp] at hs ⊢
  by_cases h1 : p.is_reloading = true
  · rw [if_pos h1] at hs
    exact absurd hs (by simp)
  · rw [if_neg h1] at hs ⊢
    by_cases h2 : p.current_ammo = 0
    · rw [if_pos h2] at hs
      exact absurd hs (by simp)
    · rw [if_neg h2] at hs ⊢
      rcases hw : weapons.get p.current_weapon_id with _ | w
      · simp only [hw] at hs
        exact absurd hs (by simp)
      · simp only [hw] at hs ⊢
        by_cases h3 : now < p.last_shot_time
        · rw [if_pos h3] at hs
          exact absurd hs (by simp)
        · rw [if_neg h3] at hs ⊢
          by_cases h4 : now - p.last_shot_time < 1 / w.fire_rate
          · rw [if_pos h4] at hs
            exact absurd hs (by simp)
          · rw [if_neg h4]

theorem try_shoot_reject_state (lobby : Lobby) (weapons : WeaponDb)
    (pid : Nat) (now : ℚ)
    (hs : (try_shoot lobby weapons pid now).2 ≠ Except.ok true) :
    (try_shoot lobby weapons pid now).1 = lobby := by
  cases hp : lookupKey lobby.players pid with
  | none =>
    unfold try_shoot
    rw [hp]
  | some p =>
    rw [try_shoot_eq lobby weapons pid now p hp] at hs ⊢
    by_cases h1 : p.is_reloading = true
    · rw [if_pos h1]
    · rw [if_neg h1] at hs ⊢
      by_cases h2 : p.current_ammo = 0
      · rw [if_pos h2]
      · rw [if_neg h2] at hs ⊢
        rcases hw : weapons.get p.current_weapon_id with _ | w
        · simp only [hw]
        · simp only [hw] at hs ⊢
          by_cases h3 : now < p.last_shot_time
          · rw [if_pos h3]
          · rw [if_neg h3] at hs ⊢
            by_cases h4 : now - p.last_shot_time < 1 / w.fire_rate
            · rw [if_pos h4]
            · rw [if_neg h4] at hs
              exact absurd rfl hs

theorem try_shoot_too_soon (lobby : Lobby) (weapons : WeaponDb) (pid : Nat)
    (t : ℚ) (q : Player) (w : WeaponData)
    (hq : lookupKey lobby.players pid = some q)
    (hw : weapons.get q.current_weapon_id = some w)
    (ht : t - q.last_shot_time < 1 / w.fire_rate) :
    (try_shoot lobby weapons pid t).1 = lobby ∧
      (try_shoot lobby weapons pid t).2 ≠ Except.ok true := by
  rw [try_shoot_eq lobby weapons pid t q hq]
  simp only [hw]
  by_cases h1 : q.is_reloading = true
  · rw [if_pos h1]
    exact ⟨rfl, by simp⟩
  · rw [if_neg h1]
    by_cases h2 : q.current_ammo = 0
    · rw [if_pos h2]
      exact ⟨rfl, by simp⟩
    · rw [if_neg h2]
      by_cases h3 : t < q.last_shot_time
      · rw [if_pos h3]
        exact ⟨rfl, by simp⟩
      · rw [if_neg h3, if_pos ht]
        exact ⟨rfl, by simp⟩

theorem runShoots_zero (weapons : WeaponDb) (pid : Nat) (w : WeaponData)
    (ts : List ℚ) : ∀ (lobby : Lobby) (q : Player),
    lookupKey lobby.players pid = some q →
    weapons.get q.current_weapon_id = some w →
    (∀ t ∈ ts, t - q.last_shot_time < 1 / w.fire_rate) →
    runShoots weapons pid lobby ts = (lobby, 0) := by
  induction ts with
  | nil =>
    intro lobby q _ _ _
    rfl
  | cons t ts ih =>
    intro lobby q hq hw ht
    obtain ⟨h5, h6⟩ :=
      try_shoot_too_soon lobby weapons pid t q w hq hw (ht t (by simp))
    simp only [runShoots]
    rw [h5, ih lobby q hq hw (fun t2 h2 => ht t2 (by simp [h2]))]
    rcases hr : (try_shoot lobby weapons pid t).2 with e | b
    · simp
    · cases b
      · simp
      · exact absurd hr h6

theorem runShoots_pairwise_le_one (weapons : WeaponDb) (pid : Nat)
    (w : WeaponData) (times : List ℚ) : ∀ (lobby : Lobby) (q : Player),
    lookupKey lobby.players pid = some q →
    weapons.get q.current_weapon_id = some w →
    (∀ t1 ∈ times, ∀ t2 ∈ times, t1 - t2 < 1 / w.fire_rate) →
    (runShoots weapons pid lobby times).2 ≤ 1 := by
  induction times with
  | nil =>
    intro lobby q _ _ _
    simp [runShoots]
  | cons t ts ih =>
    intro lobby q hq hw hpw
    by_cases hs : (try_shoot lobby weapons pid t).2 = Except.ok true
    · have hstate := try_shoot_success_state lobby weapons pid t q hq hs
      have hq2 : lookupKey (try_shoot lobby weapons pid t).1.players pid =
          some (shotPlayer q t) := by
        rw [hstate, mark_dirty_players, lookup_setPlayerState_self, hq]
        rfl
      have hw2 : weapons.get (shotPlayer q t).current_weapon_id = some w := hw
      have hts : ∀ t2 ∈ ts, t2 - (shotPlayer q t).last_shot_time <
          1 / w.fire_rate := by
        intro t2 h2
        show t2 - t < 1 / w.fire_rate
        exact hpw t2 (by simp [h2]) t (by simp)
      have hzero := runShoots_zero weapons pid w ts
        (try_shoot lobby weapons pid t).1 (shotPlayer q t) hq2 hw2 hts
      simp only [runShoots]
      rw [hzero, hs]
      simp
    · have h5 := try_shoot_reject_state lobby weapons pid t hs
      have hle := ih lobby q hq hw
        (fun t1 h1 t2 h2 => hpw t1 (by simp [h1]) t2 (by simp [h2]))
      simp only [runShoots]
      rw [h5]
      rcases hr : (try_shoot lobby weapons pid t).2 with e | b
      · simpa using hle
      · cases b
        · simpa using hle
        · exact absurd hr hs

theorem load_fire_rate_pos (i : Nat) (w : WeaponData)
    (h : WeaponDb.load.get i = some w) : 0 < w.fire_rate := by
  simp only [WeaponDb.load, WeaponDb.get, lookupKey] at h
  split_ifs at h <;> simp_all <;> norm_num [← h]

theorem try_shoot_success_iff (lobby : Lobby) (weapons : WeaponDb)
    (pid : Nat) (now : ℚ) (p : Player) (w : WeaponData)
    (hp : lookupKey lobby.players pid = some p)
    (hw : weapons.get p.current_weapon_id = some w)
    (hfr : 0 < w.fire_rate) :
    (try_shoot lobby weapons pid now).2 = Except.ok true ↔
      (p.is_reloading = false ∧ 0 < p.current_ammo ∧
        1 / w.fire_rate ≤ now - p.last_shot_time) := by
  have hfr2 : 0 < 1 / w.fire_rate := by positivity
  rw [try_shoot_eq lobby weapons pid now p hp]
  simp only [hw]
  by_cases h1 : p.is_reloading = true
  · rw [if_pos h1]
    constructor
    · intro hc
      exact absurd hc (by simp)
    · intro hc
      rw [h1] at hc
      exact absurd hc.1 (by simp)
  · rw [if_neg h1]
    have h1f : p.is_reloading = false := by
      cases hb : p.is_reloading
      · rfl
      · exact absurd hb h1
    by_cases h2 : p.current_ammo = 0
    · rw [if_pos h2]
      constructor
      · intro hc
        exact absurd hc (by simp)
      · intro hc
        rw [h2] at hc
        exact absurd hc.2.1 (by simp)
    · rw [if_neg h2]
      by_cases h3 : now < p.last_shot_time
      · rw [if_pos h3]
        constructor
        · intro hc
          exact absurd hc (by simp)
        · intro hc
          have : (0 : ℚ) < now - p.last_shot_time := lt_of_lt_of_le hfr2 hc.2.2
          linarith
      · rw [if_neg h3]
        by_cases h4 : now - p.last_shot_time < 1 / w.fire_rate
        · rw [if_pos h4]
          constructor
          · intro hc
            exact absurd hc (by simp)
          · intro hc
            exact absurd hc.2.2 (not_le.mpr h4)
        · rw [if_neg h4]
          constructor
          · intro _
            exact ⟨h1f, Nat.pos_of_ne_zero h2, not_lt.mp h4⟩
          · intro _
            rfl

/-- Claim C1: for a player whose weapon is in the catalog, a shoot is
accepted iff the player is not reloading, has ammo, and at least
`1 / fire_rate` elapsed since the last shot; on accept the ammo is
decremented, `last_shot_time` is set to now and the player is marked
dirty, while every other player is untouched; on reject nothing changes.
Amended fire-rate law: any two shots of a sequence pairwise separated by
less than `1 / fire_rate` admit at most one success (the claim's reading
with consecutive separations is refuted by the C1 counterexample). -/
theorem C1_fire_gate (lobby : Lobby) (player_id : Nat) (now : ℚ)
    (p : Player) (w : WeaponData)
    (hp : lookupKey lobby.players player_id = some p)
    (hw : WeaponDb.load.get p.current_weapon_id = some w) :
    ((try_shoot lobby WeaponDb.load player_id now).2 = Except.ok true ↔
      (p.is_reloading = false ∧ 0 < p.current_ammo ∧
        1 / w.fire_rate ≤ now - p.last_shot_time))
    ∧ ((try_shoot lobby WeaponDb.load player_id now).2 = Except.ok true →
        lookupKey (try_shoot lobby WeaponDb.load player_id now).1.players
            player_id = some (shotPlayer p now)
        ∧ (shotPlayer p now).current_ammo = p.current_ammo - 1
        ∧ (shotPlayer p now).last_shot_time = now
        ∧ player_id ∈
            (try_shoot lobby WeaponDb.load player_id now).1.dirty_players
        ∧ ∀ k, k ≠ player_id →
            lookupKey (try_shoot lobby WeaponDb.load player_id now).1.players k
              = lookupKey lobby.players k)
    ∧ ((try_shoot lobby WeaponDb.load player_id now).2 ≠ Except.ok true →
        (try_shoot lobby WeaponDb.load player_id now).1 = lobby)
    ∧ (∀ times : List ℚ,
        (∀ t1 ∈ times, ∀ t2 ∈ times, t1 - t2 < 1 / w.fire_rate) →
        (runShoots WeaponDb.load player_id lobby times).2 ≤ 1) := by
  refine ⟨?_, ?_, ?_, ?_⟩
  · exact try_shoot_success_iff lobby WeaponDb.load player_id now p w hp hw
      (load_fire_rate_pos p.current_weapon_id w hw)
  · intro hs
    have hstate := try_shoot_success_state lobby WeaponDb.load player_id now p hp hs
    refine ⟨?_, rfl, rfl, ?_, ?_⟩
    · rw [hstate, mark_dirty_players, lookup_setPlayerState_self, hp]
      rfl
    · rw [hstate]
      exact mem_mark_dirty_self _ _
    · intro k hk
      rw [hstate, mark_dirty_players, lookup_setPlayerState_ne _ _ _ _ hk]
  · exact try_shoot_reject_state lobby WeaponDb.load player_id now
  · intro times hpw
    exact runShoots_pairwise_le_one WeaponDb.load player_id w times lobby p
      hp hw hpw

/-- Witness for C1 at `lobbyTEST`: the hypotheses hold for player 1 with
weapon 1, and the theorem applies. -/
theorem C1_fire_gate_witness :
    lookupKey lobbyTEST.players 1 = some playerTEST ∧
    WeaponDb.load.get playerTEST.current_weapon_id = some goldenFriend ∧
    (((try_shoot lobbyTEST WeaponDb.load 1 5).2 = Except.ok true ↔
      (playerTEST.is_reloading = false ∧ 0 < playerTEST.current_ammo ∧
        1 / goldenFriend.fire_rate ≤ 5 - playerTEST.last_shot_time))
    ∧ ((try_shoot lobbyTEST WeaponDb.load 1 5).2 = Except.ok true →
        lookupKey (try_shoot lobbyTEST WeaponDb.load 1 5).1.players 1 =
            some (shotPlayer playerTEST 5)
        ∧ (shotPlayer playerTEST 5).current_ammo = playerTEST.current_ammo - 1
        ∧ (shotPlayer playerTEST 5).last_shot_time = 5
        ∧ 1 ∈ (try_shoot lobbyTEST WeaponDb.load 1 5).1.dirty_players
        ∧ ∀ k, k ≠ 1 →
            lookupKey (try_shoot lobbyTEST WeaponDb.load 1 5).1.players k
              = lookupKey lobbyTEST.players k)
    ∧ ((try_shoot lobbyTEST WeaponDb.load 1 5).2 ≠ Except.ok true →
        (try_shoot lobbyTEST WeaponDb.load 1 5).1 = lobbyTEST)
    ∧ (∀ times : List ℚ,
        (∀ t1 ∈ times, ∀ t2 ∈ times, t1 - t2 < 1 / goldenFriend.fire_rate) →
        (runShoots WeaponDb.load 1 lobbyTEST times).2 ≤ 1)) :=
  ⟨rfl, rfl, C1_fire_gate lobbyTEST 1 5 playerTEST goldenFriend rfl rfl⟩

/-- Counterexample to C1 as literally stated: three shots at 10, 10.2 and
10.4 seconds have consecutive separations of 0.2 s, below the 0.25 s fire
interval of weapon 1, yet two of them succeed. -/
theorem C1_counterexample :
    ((51 / 5 : ℚ) - 10 < 1 / 4 ∧ (52 / 5 : ℚ) - 51 / 5 < 1 / 4) ∧
    (WeaponDb.load.get playerTEST.current_weapon_id = some goldenFriend ∧
      (1 : ℚ) / goldenFriend.fire_rate = 1 / 4) ∧
    (runShoots WeaponDb.load 1 lobbyTEST [10, 51 / 5, 52 / 5]).2 = 2 := by
  refine ⟨⟨by norm_num, by norm_num⟩, ⟨rfl, by norm_num [goldenFriend]⟩, ?_⟩
  · norm_num [runShoots, try_shoot, lobbyTEST, playerTEST, WeaponDb.load,
      WeaponDb.get, lookupKey, setPlayerState, updateVal, Lobby.mark_dirty,
      Lobby.new]

theorem start_reload_eq (lobby : Lobby) (weapons : WeaponDb) (pid : Nat)
    (now : ℚ) (p : Player) (hp : lookupKey lobby.players pid = some p) :
    start_reload lobby weapons pid now =
      if p.is_reloading = true ∨ p.current_ammo = p.max_ammo then
        (lobby, Except.error "Cannot reload")
      else
        match weapons.get p.current_weapon_id with
        | none => (lobby, Except.error "Weapon not found")
        | some weapon =>
          ((setPlayerState lobby pid
              (reloadingPlayer p (now + weapon.reload_time))).mark_dirty pid,
            Except.ok ()) := by
  unfold start_reload
  rw [hp]
  rfl

theorem start_reload_success_state (lobby : Lobby) (weapons : WeaponDb)
    (pid : Nat) (now : ℚ) (p : Player) (w : WeaponData)
    (hp : lookupKey lobby.players pid = some p)
    (hw : weapons.get p.current_weapon_id = some w)
    (hs : (start_reload lobby weapons pid now).2 = Except.ok ()) :
    (start_reload lobby weapons pid now).1 =
      (setPlayerState lobby pid
        (reloadingPlayer p (now + w.reload_time))).mark_dirty pid := by
  rw [start_reload_eq lobby weapons pid now p hp] at hs ⊢
  by_cases hc : p.is_reloading = true ∨ p.current_ammo = p.max_ammo
  · rw [if_pos hc] at hs
    exact absurd hs (by simp)
  · rw [if_neg hc] at hs ⊢
    simp only [hw]

theorem switch_weapon_eq (lobby : Lobby) (weapons : WeaponDb) (pid : Nat)
    (wid : Nat) (p : Player) (hp : lookupKey lobby.players pid = some p) :
    switch_weapon lobby weapons pid wid =
      match weapons.get wid with
      | none => (lobby, Except.error "Invalid weapon")
      | some weapon =>
        ((setPlayerState lobby pid
            { p with current_weapon_id := wid, current_ammo := weapon.ammo,
                     max_ammo := weapon.ammo, is_reloading := false,
                     reload_end_time := none }).mark_dirty pid,
          Except.ok ()) := by
  unfold switch_weapon
  rw [hp]

/-- Claim C4: a reload starts only when the player is not already
reloading and below max ammo; for a magazine-0 weapon it can never start
(ammo is already full); a refused reload leaves the lobby unchanged. -/
theorem C4_reload_gate (lobby : Lobby) (pid : Nat) (now : ℚ) (p : Player)
    (hp : lookupKey lobby.players pid = some p)
    (hinv : p.current_ammo ≤ p.max_ammo) :
    (∀ weapons : WeaponDb,
      (start_reload lobby weapons pid now).2 = Except.ok () →
      p.is_reloading = false ∧ p.current_ammo < p.max_ammo)
    ∧ (∀ (weapons : WeaponDb) (w : WeaponData),
        weapons.get p.current_weapon_id = some w → w.ammo = 0 →
        p.max_ammo = w.ammo →
        (start_reload lobby weapons pid now).2 =
          Except.error "Cannot reload")
    ∧ (∀ (weapons : WeaponDb) (e : String),
        (start_reload lobby weapons pid now).2 = Except.error e →
        (start_reload lobby weapons pid now).1 = lobby) := by
  refine ⟨?_, ?_, ?_⟩
  · intro weapons hs
    rw [start_reload_eq lobby weapons pid now p hp] at hs
    by_cases hc : p.is_reloading = true ∨ p.current_ammo = p.max_ammo
    · rw [if_pos hc] at hs
      exact absurd hs (by simp)
    · push_neg at hc
      refine ⟨?_, lt_of_le_of_ne hinv hc.2⟩
      cases hb : p.is_reloading
      · rfl
      · exact absurd hb hc.1
  · intro weapons w _ hz hmax
    rw [start_reload_eq lobby weapons pid now p hp]
    have hfull : p.current_ammo = p.max_ammo := by
      have : p.max_ammo = 0 := by rw [hmax, hz]
      omega
    rw [if_pos (Or.inr hfull)]
  · intro weapons e hs
    rw [start_reload_eq lobby weapons pid now p hp] at hs ⊢
    by_cases hc : p.is_reloading = true ∨ p.current_ammo = p.max_ammo
    · rw [if_pos hc]
    · rw [if_neg hc] at hs ⊢
      rcases hw : weapons.get p.current_weapon_id with _ | w
      · simp only [hw]
      · simp only [hw] at hs
        exact absurd hs (by simp)

/-- Witness for C4 at `lobbyLOW` (5 of 20 rounds): hypotheses hold and
the theorem applies at time 3. -/
theorem C4_reload_gate_witness :
    lookupKey lobbyLOW.players 1 = some playerLOW ∧
    playerLOW.current_ammo ≤ playerLOW.max_ammo ∧
    ((∀ weapons : WeaponDb,
      (start_reload lobbyLOW weapons 1 3).2 = Except.ok () →
      playerLOW.is_reloading = false ∧
        playerLOW.current_ammo < playerLOW.max_ammo)
    ∧ (∀ (weapons : WeaponDb) (w : WeaponData),
        weapons.get playerLOW.current_weapon_id = some w → w.ammo = 0 →
        playerLOW.max_ammo = w.ammo →
        (start_reload lobbyLOW weapons 1 3).2 =
          Except.error "Cannot reload")
    ∧ (∀ (weapons : WeaponDb) (e : String),
        (start_reload lobbyLOW weapons 1 3).2 = Except.error e →
        (start_reload lobbyLOW weapons 1 3).1 = lobbyLOW)) :=
  ⟨rfl, by decide, C4_reload_gate lobbyLOW 1 3 playerLOW rfl (by decide)⟩

/-- Claim C6: switching to a cataloged weapon W succeeds and leaves the
player with weapon W, ammo and max ammo equal to W's magazine size, not
reloading and with no pending reload end time (the reload is canceled,
not completed); the player is marked dirty and others are untouched. -/
theorem C6_weapon_switch (lobby : Lobby) (weapons : WeaponDb)
    (pid wid : Nat) (p : Player) (w : WeaponData)
    (hp : lookupKey lobby.players pid = some p)
    (hw : weapons.get wid = some w) :
    (switch_weapon lobby weapons pid wid).2 = Except.ok ()
    ∧ lookupKey (switch_weapon lobby weapons pid wid).1.players pid =
        some { p with current_weapon_id := wid, current_ammo := w.ammo,
                      max_ammo := w.ammo, is_reloading := false,
                      reload_end_time := none }
    ∧ pid ∈ (switch_weapon lobby weapons pid wid).1.dirty_players
    ∧ (∀ k, k ≠ pid →
        lookupKey (switch_weapon lobby weapons pid wid).1.players k =
          lookupKey lobby.players k) := by
  rw [switch_weapon_eq lobby weapons pid wid p hp]
  simp only [hw]
  refine ⟨by trivial, ?_, mem_mark_dirty_self _ _, ?_⟩
  · rw [mark_dirty_players, lookup_setPlayerState_self, hp]
    rfl
  · intro k hk
    rw [mark_dirty_players, lookup_setPlayerState_ne _ _ _ _ hk]

/-- Witness for C6: switch player 1 of `lobbyTEST` to weapon 2. -/
theorem C6_weapon_switch_witness :
    lookupKey lobbyTEST.players 1 = some playerTEST ∧
    WeaponDb.load.get 2 = some prototypeW ∧
    ((switch_weapon lobbyTEST WeaponDb.load 1 2).2 = Except.ok ()
    ∧ lookupKey (switch_weapon lobbyTEST WeaponDb.load 1 2).1.players 1 =
        some { playerTEST with current_weapon_id := 2,
                               current_ammo := prototypeW.ammo,
                               max_ammo := prototypeW.ammo,
                               is_reloading := false,
                               reload_end_time := none }
    ∧ 1 ∈ (switch_weapon lobbyTEST WeaponDb.load 1 2).1.dirty_players
    ∧ (∀ k, k ≠ 1 →
        lookupKey (switch_weapon lobbyTEST WeaponDb.load 1 2).1.players k =
          lookupKey lobbyTEST.players k)) :=
  ⟨rfl, rfl, C6_weapon_switch lobbyTEST WeaponDb.load 1 2 playerTEST
    prototypeW rfl rfl⟩

theorem foldl_mark_dirty_players (ids : List Nat) : ∀ l : Lobby,
    (ids.foldl (fun l i => l.mark_dirty i) l).players = l.players := by
  induction ids with
  | nil =>
    intro l
    rfl
  | cons i rest ih =>
    intro l
    rw [List.foldl_cons, ih (l.mark_dirty i), mark_dirty_players]

theorem foldl_mark_dirty_mem (ids : List Nat) : ∀ (l : Lobby) (j : Nat),
    j ∈ ids ∨ j ∈ l.dirty_players →
    j ∈ (ids.foldl (fun l i => l.mark_dirty i) l).dirty_players := by
  induction ids with
  | nil =>
    intro l j h
    rcases h with h | h
    · exact absurd h (by simp)
    · exact h
  | cons i rest ih =>
    intro l j h
    rw [List.foldl_cons]
    apply ih
    rcases h with h | h
    · rcases List.mem_cons.mp h with h | h
      · exact Or.inr (h ▸ mem_mark_dirty_self l i)
      · exact Or.inl h
    · exact Or.inr (mem_mark_dirty_of_mem l i j h)

theorem update_reload_lookup (lobby : Lobby) (now : ℚ) (k : Nat) :
    lookupKey (update_reload_states lobby now).1.players k =
      (lookupKey lobby.players k).map
        (fun p => if reloadDue now p then completeReload p else p) := by
  unfold update_reload_states
  rw [foldl_mark_dirty_players]
  have h2 := lookupKey_map_value lobby.players
    (fun p => if reloadDue now p then completeReload p else p) k
  exact h2

theorem update_reload_dirty (lobby : Lobby) (now : ℚ) (k : Nat) (p : Player)
    (hmem : (k, p) ∈ lobby.players) (hdue : reloadDue now p = true) :
    p.id ∈ (update_reload_states lobby now).1.dirty_players := by
  unfold update_reload_states
  apply foldl_mark_dirty_mem
  left
  exact List.mem_filterMap.mpr ⟨(k, p), hmem, by simp [hdue]⟩

/-- Claim C5: on the reload-timer pass, every player whose reload is due
(`is_reloading` with `now ≥ reload_end_time`) gets a full magazine, the
reload flags cleared and a dirty mark; players whose reload is not due
are untouched; consequently, a reload started at `t` completes exactly at
the first tick whose time reaches `t + reload_time`. -/
theorem C5_reload_completion (lobby : Lobby) (now : ℚ) (k : Nat)
    (p : Player) (hp : lookupKey lobby.players k = some p) :
    (∀ e : ℚ, p.is_reloading = true → p.reload_end_time = some e →
      e ≤ now →
      lookupKey (update_reload_states lobby now).1.players k =
          some (completeReload p)
      ∧ (completeReload p).current_ammo = p.max_ammo
      ∧ (completeReload p).is_reloading = false
      ∧ (completeReload p).reload_end_time = none
      ∧ p.id ∈ (update_reload_states lobby now).1.dirty_players)
    ∧ (reloadDue now p = false →
        lookupKey (update_reload_states lobby now).1.players k = some p)
    ∧ (∀ (weapons : WeaponDb) (w : WeaponData) (t : ℚ),
        weapons.get p.current_weapon_id = some w →
        (start_reload lobby weapons k t).2 = Except.ok () →
        (∀ now1, now1 < t + w.reload_time →
          lookupKey (update_reload_states
              (start_reload lobby weapons k t).1 now1).1.players k
            = some (reloadingPlayer p (t + w.reload_time)))
        ∧ (∀ now2, t + w.reload_time ≤ now2 →
          lookupKey (update_reload_states
              (start_reload lobby weapons k t).1 now2).1.players k
            = some (completeReload (reloadingPlayer p (t + w.reload_time)))
          ∧ (completeReload
              (reloadingPlayer p (t + w.reload_time))).current_ammo
              = p.max_ammo
          ∧ (completeReload
              (reloadingPlayer p (t + w.reload_time))).is_reloading
              = false)) := by
  refine ⟨?_, ?_, ?_⟩
  · intro e h1 h2 h3
    have hdue : reloadDue now p = true := by
      simp [reloadDue, h1, h2, h3]
    refine ⟨?_, rfl, rfl, rfl, ?_⟩
    · rw [update_reload_lookup, hp]
      simp [hdue]
    · exact update_reload_dirty lobby now k p (lookupKey_mem _ _ _ hp) hdue
  · intro hdue
    rw [update_reload_lookup, hp]
    simp [hdue]
  · intro weapons w t hw hs
    have hstate := start_reload_success_state lobby weapons k t p w hp hw hs
    have hq : lookupKey (start_reload lobby weapons k t).1.players k =
        some (reloadingPlayer p (t + w.reload_time)) := by
      rw [hstate, mark_dirty_players, lookup_setPlayerState_self, hp]
      rfl
    constructor
    · intro now1 hlt
      have hdue : reloadDue now1 (reloadingPlayer p (t + w.reload_time))
          = false := by
        simp [reloadDue, reloadingPlayer, not_le.mpr hlt]
      rw [update_reload_lookup, hq]
      simp [hdue]
    · intro now2 hle
      have hdue : reloadDue now2 (reloadingPlayer p (t + w.reload_time))
          = true := by
        simp [reloadDue, reloadingPlayer, hle]
      refine ⟨?_, rfl, rfl⟩
      rw [update_reload_lookup, hq]
      simp [hdue]

/-- Witness for C5 at `lobbyLOW`: player 1 holds 5 of 20 rounds, and
the claim theorem applies at tick time 3. -/
theorem C5_reload_completion_witness :
    lookupKey lobbyLOW.players 1 = some playerLOW ∧
    ((∀ e : ℚ, playerLOW.is_reloading = true →
      playerLOW.reload_end_time = some e → e ≤ 3 →
      lookupKey (update_reload_states lobbyLOW 3).1.players 1 =
          some (completeReload playerLOW)
      ∧ (completeReload playerLOW).current_ammo = playerLOW.max_ammo
      ∧ (completeReload playerLOW).is_reloading = false
      ∧ (completeReload playerLOW).reload_end_time = none
      ∧ playerLOW.id ∈ (update_reload_states lobbyLOW 3).1.dirty_players)
    ∧ (reloadDue 3 playerLOW = false →
        lookupKey (update_reload_states lobbyLOW 3).1.players 1 =
          some playerLOW)
    ∧ (∀ (weapons : WeaponDb) (w : WeaponData) (t : ℚ),
        weapons.get playerLOW.current_weapon_id = some w →
        (start_reload lobbyLOW weapons 1 t).2 = Except.ok () →
        (∀ now1, now1 < t + w.reload_time →
          lookupKey (update_reload_states
              (start_reload lobbyLOW weapons 1 t).1 now1).1.players 1
            = some (reloadingPlayer playerLOW (t + w.reload_time)))
        ∧ (∀ now2, t + w.reload_time ≤ now2 →
          lookupKey (update_reload_states
              (start_reload lobbyLOW weapons 1 t).1 now2).1.players 1
            = some (completeReload
                (reloadingPlayer playerLOW (t + w.reload_time)))
          ∧ (completeReload
              (reloadingPlayer playerLOW (t + w.reload_time))).current_ammo
              = playerLOW.max_ammo
          ∧ (completeReload
              (reloadingPlayer playerLOW (t + w.reload_time))).is_reloading
              = false))) :=
  ⟨rfl, C5_reload_completion lobbyLOW 3 1 playerLOW rfl⟩

theorem apply_damage_none (lobby : Lobby) (tgt dmg : Nat)
    (h : lookupKey lobby.players tgt = none) :
    apply_damage lobby tgt dmg = (lobby, Except.error "Player not found") := by
  unfold apply_damage
  rw [h]

theorem apply_damage_eq (lobby : Lobby) (tgt dmg : Nat) (q : Player)
    (hq : lookupKey lobby.players tgt = some q) :
    apply_damage lobby tgt dmg =
      if dmg = 0 ∨ dmg > 100 then
        (lobby, Except.error "Invalid damage amount")
      else
        ((setPlayerState lobby tgt
            { q with current_health := q.current_health - dmg
              }).mark_dirty tgt,
          Except.ok ()) := by
  unfold apply_damage
  rw [hq]

theorem try_shoot_success_weapon (lobby : Lobby) (weapons : WeaponDb)
    (pid : Nat) (now : ℚ) (p : Player)
    (hp : lookupKey lobby.players pid = some p)
    (hs : (try_shoot lobby weapons pid now).2 = Except.ok true) :
    ∃ w, weapons.get p.current_weapon_id = some w := by
  rw [try_shoot_eq lobby weapons pid now p hp] at hs
  by_cases h1 : p.is_reloading = true
  · rw [if_pos h1] at hs
    exact absurd hs (by simp)
  · rw [if_neg h1] at hs
    by_cases h2 : p.current_ammo = 0
    · rw [if_pos h2] at hs
      exact absurd hs (by simp)
    · rw [if_neg h2] at hs
      cases hw : weapons.get p.current_weapon_id with
      | none =>
        simp only [hw] at hs
        exact absurd hs (by simp)
      | some w => exact ⟨w, hw ▸ rfl⟩


/-- Claim C7: when a Shoot passes the shooter's gate, a missing target
leaves the shot's effects on the shooter intact (ammo consumed, dirty
mark set, hence broadcast) while no player's health changes; damage
applied to an existing target is rejected without mutation when outside
(0, 100] and otherwise subtracts the damage from the target's health,
saturating at 0. -/
theorem C7_shoot_target (lobby : Lobby) (pid target : Nat) (now : ℚ)
    (p : Player) (hp : lookupKey lobby.players pid = some p)
    (hgate : (try_shoot lobby WeaponDb.load pid now).2 = Except.ok true) :
    (lookupKey (try_shoot lobby WeaponDb.load pid now).1.players target
          = none →
      process_command_shoot lobby WeaponDb.load pid target now
          = (try_shoot lobby WeaponDb.load pid now).1
      ∧ lookupKey (process_command_shoot lobby WeaponDb.load pid target
          now).players pid = some (shotPlayer p now)
      ∧ (shotPlayer p now).current_ammo = p.current_ammo - 1
      ∧ pid ∈ (process_command_shoot lobby WeaponDb.load pid target
          now).dirty_players
      ∧ ∀ k, (lookupKey (process_command_shoot lobby WeaponDb.load pid
            target now).players k).map Player.current_health
          = (lookupKey lobby.players k).map Player.current_health)
    ∧ (∀ (l2 : Lobby) (tgt : Nat) (q : Player) (dmg : Nat),
        lookupKey l2.players tgt = some q → (dmg = 0 ∨ dmg > 100) →
        apply_damage l2 tgt dmg = (l2, Except.error "Invalid damage amount"))
    ∧ (∀ (l2 : Lobby) (tgt : Nat) (q : Player) (dmg : Nat),
        lookupKey l2.players tgt = some q → 0 < dmg → dmg ≤ 100 →
        (apply_damage l2 tgt dmg).2 = Except.ok ()
        ∧ lookupKey (apply_damage l2 tgt dmg).1.players tgt
            = some { q with current_health := q.current_health - dmg }) := by
  have hstate := try_shoot_success_state lobby WeaponDb.load pid now p hp hgate
  have hl1 : lookupKey (try_shoot lobby WeaponDb.load pid now).1.players pid
      = some (shotPlayer p now) := by
    rw [hstate, mark_dirty_players, lookup_setPlayerState_self, hp]
    rfl
  refine ⟨?_, ?_, ?_⟩
  · intro htnone
    obtain ⟨w, hw⟩ :=
      try_shoot_success_weapon lobby WeaponDb.load pid now p hp hgate
    have hw2 : WeaponDb.load.get (shotPlayer p now).current_weapon_id
        = some w := hw
    have hpair : try_shoot lobby WeaponDb.load pid now =
        ((try_shoot lobby WeaponDb.load pid now).1, Except.ok true) :=
      Prod.ext rfl hgate
    have hps : process_command_shoot lobby WeaponDb.load pid target now
        = (try_shoot lobby WeaponDb.load pid now).1 := by
      unfold process_command_shoot
      rw [hpair]
      simp only [hl1, hw2]
      rw [apply_damage_none _ _ _ htnone]
    refine ⟨hps, ?_, rfl, ?_, ?_⟩
    · rw [hps]
      exact hl1
    · rw [hps, hstate]
      exact mem_mark_dirty_self _ _
    · intro k
      rw [hps]
      by_cases hk : k = pid
      · rw [hk, hl1, hp]
        rfl
      · rw [hstate, mark_dirty_players, lookup_setPlayerState_ne _ _ _ _ hk]
  · intro l2 tgt q dmg hq hbad
    rw [apply_damage_eq l2 tgt dmg q hq, if_pos hbad]
  · intro l2 tgt q dmg hq hpos hle
    have hbad : ¬ (dmg = 0 ∨ dmg > 100) := by omega
    rw [apply_damage_eq l2 tgt dmg q hq, if_neg hbad]
    refine ⟨rfl, ?_⟩
    rw [mark_dirty_players, lookup_setPlayerState_self, hq]
    rfl

/-- Witness for C7 at `lobbyTEST`: player 1 shoots at time 5 with the
non-existent target 0; the gate passes and the theorem applies. -/
theorem C7_shoot_target_witness :
    lookupKey lobbyTEST.players 1 = some playerTEST ∧
    (try_shoot lobbyTEST WeaponDb.load 1 5).2 = Except.ok true ∧
    ((lookupKey (try_shoot lobbyTEST WeaponDb.load 1 5).1.players 0
          = none →
      process_command_shoot lobbyTEST WeaponDb.load 1 0 5
          = (try_shoot lobbyTEST WeaponDb.load 1 5).1
      ∧ lookupKey (process_command_shoot lobbyTEST WeaponDb.load 1 0
          5).players 1 = some (shotPlayer playerTEST 5)
      ∧ (shotPlayer playerTEST 5).current_ammo
          = playerTEST.current_ammo - 1
      ∧ 1 ∈ (process_command_shoot lobbyTEST WeaponDb.load 1 0
          5).dirty_players
      ∧ ∀ k, (lookupKey (process_command_shoot lobbyTEST WeaponDb.load 1
            0 5).players k).map Player.current_health
          = (lookupKey lobbyTEST.players k).map Player.current_health)
    ∧ (∀ (l2 : Lobby) (tgt : Nat) (q : Player) (dmg : Nat),
        lookupKey l2.players tgt = some q → (dmg = 0 ∨ dmg > 100) →
        apply_damage l2 tgt dmg = (l2, Except.error "Invalid damage amount"))
    ∧ (∀ (l2 : Lobby) (tgt : Nat) (q : Player) (dmg : Nat),
        lookupKey l2.players tgt = some q → 0 < dmg → dmg ≤ 100 →
        (apply_damage l2 tgt dmg).2 = Except.ok ()
        ∧ lookupKey (apply_damage l2 tgt dmg).1.players tgt
            = some { q with current_health := q.current_health - dmg })) := by
  have hgate : (try_shoot lobbyTEST WeaponDb.load 1 5).2 = Except.ok true := by
    norm_num [try_shoot, lobbyTEST, playerTEST, WeaponDb.load, WeaponDb.get,
      lookupKey]
  exact ⟨rfl, hgate, C7_shoot_target lobbyTEST 1 0 5 playerTEST rfl hgate⟩

/-- Claim C3 (amended): `insert_lobby` is an unconditional replace that
reports nothing: inserting under a present code swaps in the new handle
(the old handle and its sender are dropped), other codes are untouched,
and the duplicate check lives in `create_lobby_with_tick`, which refuses
creation and leaves the registry unchanged when the code exists. -/
theorem C3_insert_replaces (s : ServerState) (code : String)
    (hOld hNew : LobbyHandle)
    (hpres : lookupKey s.lobbies code = some hOld) :
    lookupKey (s.insert_lobby code hNew).lobbies code = some hNew
    ∧ (∀ c2, c2 ≠ code →
        lookupKey (s.insert_lobby code hNew).lobbies c2 =
          lookupKey s.lobbies c2)
    ∧ (∀ (mp : Nat) (sc : String) (tx : Nat),
        create_lobby_with_tick s code mp sc tx =
          (s, Except.error "Lobby already exists")) := by
  refine ⟨?_, ?_, ?_⟩
  · exact lookupKey_insertKey_self s.lobbies code hNew
  · intro c2 hc2
    exact lookupKey_insertKey_ne s.lobbies code c2 hNew hc2
  · intro mp sc tx
    unfold create_lobby_with_tick
    have hex : s.lobby_exists code = true := by
      unfold ServerState.lobby_exists
      rw [hpres]
      rfl
    rw [if_pos hex]

/-- Witness for C3 (amended) at `stateC3`, replacing `handleA` with
`handleB`. -/
theorem C3_insert_replaces_witness :
    lookupKey stateC3.lobbies "TEST" = some handleA ∧
    (lookupKey (stateC3.insert_lobby "TEST" handleB).lobbies "TEST" =
        some handleB
    ∧ (∀ c2, c2 ≠ "TEST" →
        lookupKey (stateC3.insert_lobby "TEST" handleB).lobbies c2 =
          lookupKey stateC3.lobbies c2)
    ∧ (∀ (mp : Nat) (sc : String) (tx : Nat),
        create_lobby_with_tick stateC3 "TEST" mp sc tx =
          (stateC3, Except.error "Lobby already exists"))) :=
  ⟨rfl, C3_insert_replaces stateC3 "TEST" handleA handleB rfl⟩

/-- Counterexample to C3 as stated: inserting `handleB` under the already
present code TEST is not a no-op — the registry afterwards maps TEST to
`handleB`, not to the existing `handleA` — and `insert_lobby` returns
`ServerState` (no indication whether insertion occurred). -/
theorem C3_counterexample :
    lookupKey stateC3.lobbies "TEST" = some handleA ∧
    handleB ≠ handleA ∧
    lookupKey (stateC3.insert_lobby "TEST" handleB).lobbies "TEST" =
      some handleB := by
  refine ⟨rfl, by decide, ?_⟩
  rfl

theorem foldl_remove_player_lookup (ids : List Nat) : ∀ (l : Lobby) (k : Nat),
    lookupKey ((ids.foldl (fun l i => remove_player l i) l)).players k
      = if k ∈ ids then none else lookupKey l.players k := by
  induction ids with
  | nil =>
    intro l k
    simp
  | cons i rest ih =>
    intro l k
    rw [List.foldl_cons, ih (remove_player l i) k]
    by_cases hk : k ∈ rest
    · simp [hk]
    · by_cases hki : k = i
      · subst hki
        simp [hk, remove_player, lookupKey_removeKey_self]
      · simp [hk, hki, remove_player, lookupKey_removeKey_ne _ _ _ hki]

theorem foldl_remove_addr_lookup (ids : List Nat) : ∀ (l : Lobby) (k : Nat),
    lookupKey ((ids.foldl (fun l i => remove_player l i) l)).client_addresses k
      = if k ∈ ids then none else lookupKey l.client_addresses k := by
  induction ids with
  | nil =>
    intro l k
    simp
  | cons i rest ih =>
    intro l k
    rw [List.foldl_cons, ih (remove_player l i) k]
    by_cases hk : k ∈ rest
    · simp [hk]
    · by_cases hki : k = i
      · subst hki
        simp [hk, remove_player, lookupKey_removeKey_self]
      · simp [hk, hki, remove_player, lookupKey_removeKey_ne _ _ _ hki]

theorem foldl_remove_sync_lookup (ids : List Nat) : ∀ (l : Lobby) (k : Nat),
    lookupKey ((ids.foldl (fun l i => remove_player l i) l)).last_sync_state k
      = if k ∈ ids then none else lookupKey l.last_sync_state k := by
  induction ids with
  | nil =>
    intro l k
    simp
  | cons i rest ih =>
    intro l k
    rw [List.foldl_cons, ih (remove_player l i) k]
    by_cases hk : k ∈ rest
    · simp [hk]
    · by_cases hki : k = i
      · subst hki
        simp [hk, remove_player, lookupKey_removeKey_self]
      · simp [hk, hki, remove_player, lookupKey_removeKey_ne _ _ _ hki]

theorem inactivePlayers_ne_999 (lobby : Lobby) (ts : Nat) (now : ℚ) :
    ∀ j ∈ inactivePlayers lobby ts now, j ≠ 999 := by
  intro j hj
  obtain ⟨kp, hkp, hcond⟩ := List.mem_filterMap.mp hj
  by_cases hdue : inactiveDue now ts kp.1 kp.2 = true
  · rw [if_pos hdue] at hcond
    have hkj : kp.1 = j := Option.some.inj hcond
    intro hj999
    rw [hkj, hj999] at hdue
    simp [inactiveDue] at hdue
  · rw [if_neg hdue] at hcond
    exact absurd hcond (by simp)

/-- Claim C8 (amended): on the cleanup pass a real player (id ≠ 999) is
removed — together with its address and last-sync entries — exactly when
the elapsed time since `last_update`, truncated to whole seconds
(`Duration::as_secs`), exceeds the timeout; a player with id 999 survives
no matter how stale its `last_update` is. -/
theorem C8_cleanup_eviction (lobby : Lobby) (k : Nat) (p : Player)
    (ts : Nat) (now : ℚ) (hp : lookupKey lobby.players k = some p) :
    (k ≠ 999 → p.last_update ≤ now → ts < asSecs (now - p.last_update) →
      lookupKey (cleanup_inactive lobby ts now).1.players k = none
      ∧ lookupKey (cleanup_inactive lobby ts now).1.client_addresses k = none
      ∧ lookupKey (cleanup_inactive lobby ts now).1.last_sync_state k = none
      ∧ k ∈ (cleanup_inactive lobby ts now).2)
    ∧ (k = 999 →
        lookupKey (cleanup_inactive lobby ts now).1.players k = some p) := by
  constructor
  · intro hk999 hle hlt
    have hdue : inactiveDue now ts k p = true := by
      simp [inactiveDue, hk999, hle, hlt]
    have hkmem : k ∈ inactivePlayers lobby ts now :=
      List.mem_filterMap.mpr ⟨(k, p), lookupKey_mem _ _ _ hp, by simp [hdue]⟩
    refine ⟨?_, ?_, ?_, hkmem⟩
    · show lookupKey ((inactivePlayers lobby ts now).foldl
        (fun l i => remove_player l i) lobby).players k = none
      rw [foldl_remove_player_lookup, if_pos hkmem]
    · show lookupKey ((inactivePlayers lobby ts now).foldl
        (fun l i => remove_player l i) lobby).client_addresses k = none
      rw [foldl_remove_addr_lookup, if_pos hkmem]
    · show lookupKey ((inactivePlayers lobby ts now).foldl
        (fun l i => remove_player l i) lobby).last_sync_state k = none
      rw [foldl_remove_sync_lookup, if_pos hkmem]
  · intro hk999
    have hnot : k ∉ inactivePlayers lobby ts now := fun hmem =>
      inactivePlayers_ne_999 lobby ts now k hmem hk999
    show lookupKey ((inactivePlayers lobby ts now).foldl
      (fun l i => remove_player l i) lobby).players k = some p
    rw [foldl_remove_player_lookup, if_neg hnot]
    exact hp

/-- Witness for C8 (amended): a fully stale player 1 (`last_update` 0) at
tick time 20 with a 15 second timeout is evicted from all three maps. -/
theorem C8_cleanup_eviction_witness :
    lookupKey lobbyTEST.players 1 = some playerTEST ∧
    ((1 ≠ 999 → playerTEST.last_update ≤ 20 →
      15 < asSecs (20 - playerTEST.last_update) →
      lookupKey (cleanup_inactive lobbyTEST 15 20).1.players 1 = none
      ∧ lookupKey (cleanup_inactive lobbyTEST 15 20).1.client_addresses 1
          = none
      ∧ lookupKey (cleanup_inactive lobbyTEST 15 20).1.last_sync_state 1
          = none
      ∧ 1 ∈ (cleanup_inactive lobbyTEST 15 20).2)
    ∧ (1 = 999 →
        lookupKey (cleanup_inactive lobbyTEST 15 20).1.players 1 =
          some playerTEST)) :=
  ⟨rfl, C8_cleanup_eviction lobbyTEST 1 playerTEST 15 20 rfl⟩

/-- Counterexample to C8 as stated: with a 15 s timeout and a player
15.5 s stale (so `now − last_update` exceeds the timeout), the cleanup
pass removes nobody, because `Duration::as_secs()` truncates 15.5 to 15
and the code compares with strict `>`. -/
theorem C8_counterexample :
    (15 : ℚ) < 31 / 2 - playerTEST.last_update ∧
    (cleanup_inactive lobbyTEST 15 (31 / 2)).2 = [] ∧
    lookupKey (cleanup_inactive lobbyTEST 15 (31 / 2)).1.players 1 =
      some playerTEST := by
  have hfl : (⌊(31 : ℚ) / 2⌋) = 15 := by
    rw [Int.floor_eq_iff]
    norm_num
  have hempty : inactivePlayers lobbyTEST 15 (31 / 2) = [] := by
    norm_num [inactivePlayers, lobbyTEST, playerTEST, inactiveDue, asSecs,
      hfl]
  refine ⟨by norm_num [playerTEST], hempty, ?_⟩
  show lookupKey ((inactivePlayers lobbyTEST 15 (31 / 2)).foldl
    (fun l i => remove_player l i) lobbyTEST).players 1 = some playerTEST
  rw [hempty]
  rfl

theorem ammoInv_of_players_eq (l1 l2 : Lobby) (h : l2.players = l1.players)
    (hinv : AmmoInv l1) : AmmoInv l2 := by
  intro kp hkp
  exact hinv kp (h ▸ hkp)

theorem ammoInv_mark_dirty (l : Lobby) (i : Nat) (hinv : AmmoInv l) :
    AmmoInv (l.mark_dirty i) :=
  ammoInv_of_players_eq l _ (mark_dirty_players l i) hinv

theorem ammoInv_setPlayerState (l : Lobby) (k : Nat) (p2 : Player)
    (hinv : AmmoInv l) (h2 : p2.current_ammo ≤ p2.max_ammo) :
    AmmoInv (setPlayerState l k p2) := by
  intro kp hkp
  rcases mem_updateVal _ _ _ _ hkp with h | ⟨v, _, hev⟩
  · exact hinv kp h
  · rw [hev]
    exact h2

/-- Claim C9: `current_ammo ≤ max_ammo` holds in the empty lobby, is
established for a new player by `add_player`, and is preserved by every
mutating operation of the domain layer. -/
theorem C9_ammo_invariant (lobby : Lobby) (hinv : AmmoInv lobby) :
    (∀ (code : String) (mp : Nat) (sc : String),
      AmmoInv (Lobby.new code mp sc))
    ∧ (∀ (pid : Nat) (nm : String) (dw : Nat) (db : WeaponDb) (now : ℚ),
        AmmoInv (add_player lobby pid nm dw db now).1)
    ∧ (∀ (db : WeaponDb) (pid : Nat) (now : ℚ),
        AmmoInv (try_shoot lobby db pid now).1)
    ∧ (∀ (tgt dmg : Nat), AmmoInv (apply_damage lobby tgt dmg).1)
    ∧ (∀ (db : WeaponDb) (pid : Nat) (now : ℚ),
        AmmoInv (start_reload lobby db pid now).1)
    ∧ (∀ now : ℚ, AmmoInv (update_reload_states lobby now).1)
    ∧ (∀ (db : WeaponDb) (pid wid : Nat),
        AmmoInv (switch_weapon lobby db pid wid).1)
    ∧ (∀ (pid : Nat) (ps rt : ℚ × ℚ × ℚ) (now : ℚ),
        AmmoInv (update_position lobby pid ps rt now).1)
    ∧ (∀ pid : Nat, AmmoInv (remove_player lobby pid))
    ∧ (∀ (ts : Nat) (now : ℚ), AmmoInv (cleanup_inactive lobby ts now).1) := by
  refine ⟨?_, ?_, ?_, ?_, ?_, ?_, ?_, ?_, ?_, ?_⟩
  · intro code mp sc kp hkp
    exact absurd hkp (by simp [Lobby.new])
  · intro pid nm dw db now
    unfold add_player
    by_cases h1 : lobby.players.length ≥ lobby.max_players
    · rw [if_pos h1]
      exact hinv
    · rw [if_neg h1]
      by_cases h2 : (lookupKey lobby.players pid).isSome = true
      · rw [if_pos h2]
        exact hinv
      · rw [if_neg h2]
        rcases hw : db.get dw with _ | w
        · simp only [hw]
          exact hinv
        · simp only [hw]
          apply ammoInv_mark_dirty
          intro kp hkp
          rcases mem_insertKey _ _ _ _ hkp with h | h
          · exact hinv kp h
          · rw [h]
            exact Nat.le_refl _
  · intro db pid now
    by_cases hs : (try_shoot lobby db pid now).2 = Except.ok true
    · cases hp : lookupKey lobby.players pid with
      | none =>
        unfold try_shoot at hs
        rw [hp] at hs
        exact absurd hs (by simp)
      | some p =>
        rw [try_shoot_success_state lobby db pid now p hp hs]
        apply ammoInv_mark_dirty
        apply ammoInv_setPlayerState _ _ _ hinv
        have hple := hinv (pid, p) (lookupKey_mem _ _ _ hp)
        exact le_trans (Nat.sub_le _ _) hple
    · rw [try_shoot_reject_state lobby db pid now hs]
      exact hinv
  · intro tgt dmg
    cases hq : lookupKey lobby.players tgt with
    | none =>
      rw [apply_damage_none lobby tgt dmg hq]
      exact hinv
    | some q =>
      rw [apply_damage_eq lobby tgt dmg q hq]
      by_cases hbad : dmg = 0 ∨ dmg > 100
      · rw [if_pos hbad]
        exact hinv
      · rw [if_neg hbad]
        apply ammoInv_mark_dirty
        exact ammoInv_setPlayerState _ _ _ hinv
          (hinv (tgt, q) (lookupKey_mem _ _ _ hq))
  · intro db pid now
    cases hp : lookupKey lobby.players pid with
    | none =>
      unfold start_reload
      rw [hp]
      exact hinv
    | some p =>
      rw [start_reload_eq lobby db pid now p hp]
      by_cases hc : p.is_reloading = true ∨ p.current_ammo = p.max_ammo
      · rw [if_pos hc]
        exact hinv
      · rw [if_neg hc]
        rcases hw : db.get p.current_weapon_id with _ | w
        · simp only [hw]
          exact hinv
        · simp only [hw]
          apply ammoInv_mark_dirty
          exact ammoInv_setPlayerState _ _ _ hinv
            (hinv (pid, p) (lookupKey_mem _ _ _ hp))
  · intro now
    have h2 : (update_reload_states lobby now).1.players =
        lobby.players.map (fun kp => (kp.1,
          if reloadDue now kp.2 then completeReload kp.2 else kp.2)) := by
      unfold update_reload_states
      rw [foldl_mark_dirty_players]
    intro kp hkp
    rw [h2] at hkp
    obtain ⟨kp0, hkp0, heq⟩ := List.mem_map.mp hkp
    rw [← heq]
    by_cases hdue : reloadDue now kp0.2 = true
    · simp only [if_pos hdue]
      exact le_refl _
    · simp only [if_neg hdue]
      exact hinv kp0 hkp0
  · intro db pid wid
    cases hp : lookupKey lobby.players pid with
    | none =>
      unfold switch_weapon
      rw [hp]
      exact hinv
    | some p =>
      rw [switch_weapon_eq lobby db pid wid p hp]
      rcases hw : db.get wid with _ | w
      · simp only [hw]
        exact hinv
      · simp only [hw]
        apply ammoInv_mark_dirty
        exact ammoInv_setPlayerState _ _ _ hinv (le_refl _)
  · intro pid ps rt now
    cases hp : lookupKey lobby.players pid with
    | none =>
      unfold update_position
      rw [hp]
      exact hinv
    | some p =>
      unfold update_position
      rw [hp]
      apply ammoInv_mark_dirty
      exact ammoInv_setPlayerState _ _ _ hinv
        (hinv (pid, p) (lookupKey_mem _ _ _ hp))
  · intro pid kp hkp
    exact hinv kp (mem_removeKey _ _ _ hkp)
  · intro ts now
    show AmmoInv ((inactivePlayers lobby ts now).foldl
      (fun l i => remove_player l i) lobby)
    generalize inactivePlayers lobby ts now = ids
    induction ids generalizing lobby with
    | nil => exact hinv
    | cons i rest ih =>
      rw [List.foldl_cons]
      apply ih
      intro kp hkp
      exact hinv kp (mem_removeKey _ _ _ hkp)

/-- Witness for C9 at `lobbyTEST`, whose single player holds 20 of 20
rounds. -/
theorem C9_ammo_invariant_witness :
    AmmoInv lobbyTEST ∧
    ((∀ (code : String) (mp : Nat) (sc : String),
      AmmoInv (Lobby.new code mp sc))
    ∧ (∀ (pid : Nat) (nm : String) (dw : Nat) (db : WeaponDb) (now : ℚ),
        AmmoInv (add_player lobbyTEST pid nm dw db now).1)
    ∧ (∀ (db : WeaponDb) (pid : Nat) (now : ℚ),
        AmmoInv (try_shoot lobbyTEST db pid now).1)
    ∧ (∀ (tgt dmg : Nat), AmmoInv (apply_damage lobbyTEST tgt dmg).1)
    ∧ (∀ (db : WeaponDb) (pid : Nat) (now : ℚ),
        AmmoInv (start_reload lobbyTEST db pid now).1)
    ∧ (∀ now : ℚ, AmmoInv (update_reload_states lobbyTEST now).1)
    ∧ (∀ (db : WeaponDb) (pid wid : Nat),
        AmmoInv (switch_weapon lobbyTEST db pid wid).1)
    ∧ (∀ (pid : Nat) (ps rt : ℚ × ℚ × ℚ) (now : ℚ),
        AmmoInv (update_position lobbyTEST pid ps rt now).1)
    ∧ (∀ pid : Nat, AmmoInv (remove_player lobbyTEST pid))
    ∧ (∀ (ts : Nat) (now : ℚ),
        AmmoInv (cleanup_inactive lobbyTEST ts now).1)) := by
  have hinv : AmmoInv lobbyTEST := by
    intro kp hkp
    simp [lobbyTEST, Lobby.new] at hkp
    rw [hkp]
    decide
  exact ⟨hinv, C9_ammo_invariant lobbyTEST hinv⟩

theorem collectGo_events_mono (ids : List Nat) :
    ∀ (lobby : Lobby) (events : List SyncEvent) (e : SyncEvent),
    e ∈ events → e ∈ (collectGo ids lobby events).2 := by
  induction ids with
  | nil =>
    intro lobby events e he
    exact he
  | cons i rest ih =>
    intro lobby events e he
    unfold collectGo
    cases hp : lookupKey lobby.players i with
    | none => exact ih lobby events e he
    | some p =>
      exact ih _ _ e (List.mem_append.mpr (Or.inl he))

theorem reload_mem_syncFieldEvents_none (pid : Nat) (p : Player) :
    SyncEvent.ReloadStateChanged pid p.is_reloading ∈
      syncFieldEvents pid none p := by
  simp [syncFieldEvents]

theorem collectGo_emits (ids : List Nat) :
    ∀ (lobby : Lobby) (events : List SyncEvent) (pid : Nat) (p : Player),
    pid ∈ ids → ids.Nodup →
    lookupKey lobby.players pid = some p →
    lookupKey lobby.last_sync_state pid = none →
    SyncEvent.ReloadStateChanged pid p.is_reloading ∈
      (collectGo ids lobby events).2 := by
  induction ids with
  | nil =>
    intro lobby events pid p hmem _ _ _
    exact absurd hmem (by simp)
  | cons i rest ih =>
    intro lobby events pid p hmem hnd hp hs
    unfold collectGo
    by_cases hi : i = pid
    · subst hi
      rw [hp]
      apply collectGo_events_mono
      apply List.mem_append.mpr
      right
      rw [hs]
      exact reload_mem_syncFieldEvents_none i p
    · have hmem2 : pid ∈ rest := by
        rcases List.mem_cons.mp hmem with h | h
        · exact absurd h.symm hi
        · exact h
      cases hq : lookupKey lobby.players i with
      | none => exact ih lobby events pid p hmem2 (List.Nodup.of_cons hnd) hp hs
      | some q =>
        apply ih _ _ pid p hmem2 (List.Nodup.of_cons hnd)
        · exact hp
        · show lookupKey (insertKey lobby.last_sync_state i
            q.to_sync_state) pid = none
          rw [lookupKey_insertKey_ne _ _ _ _ (fun hc => hi hc.symm)]
          exact hs

/-- Claim C10: a dirty player with no prior last-sync snapshot (such as a
fresh joiner) always gets a ReloadStateChanged event carrying its
`is_reloading`; a fresh joiner has `is_reloading = false`, and a false
ReloadStateChanged is broadcast with packet type `reload_finished` —
a reload-finished message for a player who never reloaded. -/
theorem C10_fresh_reload_event (lobby : Lobby) (pid : Nat) (p : Player)
    (hd : pid ∈ lobby.dirty_players)
    (hnd : lobby.dirty_players.Nodup)
    (hp : lookupKey lobby.players pid = some p)
    (hs : lookupKey lobby.last_sync_state pid = none) :
    SyncEvent.ReloadStateChanged pid p.is_reloading ∈
        (collect_dirty_events lobby).2
    ∧ (p.is_reloading = false →
        statePacketType (SyncEvent.ReloadStateChanged pid p.is_reloading)
          = some "reload_finished")
    ∧ (∀ (l0 : Lobby) (pid2 : Nat) (nm : String) (dw : Nat)
        (db : WeaponDb) (now : ℚ),
        (add_player l0 pid2 nm dw db now).2 = Except.ok () →
        ∃ q, lookupKey (add_player l0 pid2 nm dw db now).1.players pid2
            = some q
          ∧ q.is_reloading = false
          ∧ pid2 ∈ (add_player l0 pid2 nm dw db now).1.dirty_players
          ∧ lookupKey (add_player l0 pid2 nm dw db now).1.last_sync_state
              pid2 = lookupKey l0.last_sync_state pid2) := by
  refine ⟨?_, ?_, ?_⟩
  · exact collectGo_emits lobby.dirty_players lobby [] pid p hd hnd hp hs
  · intro hr
    rw [hr]
    rfl
  · intro l0 pid2 nm dw db now hok
    unfold add_player at hok ⊢
    by_cases h1 : l0.players.length ≥ l0.max_players
    · rw [if_pos h1] at hok
      exact absurd hok (by simp)
    · rw [if_neg h1] at hok ⊢
      by_cases h2 : (lookupKey l0.players pid2).isSome = true
      · rw [if_pos h2] at hok
        exact absurd hok (by simp)
      · rw [if_neg h2] at hok ⊢
        rcases hw : db.get dw with _ | w
        · simp only [hw] at hok
          exact absurd hok (by simp)
        · simp only [hw]
          refine ⟨newPlayer pid2 nm dw w now, ?_, rfl, ?_, ?_⟩
          · rw [mark_dirty_players]
            show lookupKey (insertKey l0.players pid2 _) pid2 = _
            rw [lookupKey_insertKey_self]
          · exact mem_mark_dirty_self _ _
          · rw [mark_dirty_last_sync]

/-- Witness for C10 at `lobbyDIRTY`: player 1 is dirty with no snapshot
and not reloading, so a `reload_finished` datagram goes out. -/
theorem C10_fresh_reload_event_witness :
    (1 ∈ lobbyDIRTY.dirty_players ∧ lobbyDIRTY.dirty_players.Nodup ∧
      lookupKey lobbyDIRTY.players 1 = some playerTEST ∧
      lookupKey lobbyDIRTY.last_sync_state 1 = none) ∧
    (SyncEvent.ReloadStateChanged 1 playerTEST.is_reloading ∈
        (collect_dirty_events lobbyDIRTY).2
    ∧ (playerTEST.is_reloading = false →
        statePacketType
            (SyncEvent.ReloadStateChanged 1 playerTEST.is_reloading)
          = some "reload_finished")
    ∧ (∀ (l0 : Lobby) (pid2 : Nat) (nm : String) (dw : Nat)
        (db : WeaponDb) (now : ℚ),
        (add_player l0 pid2 nm dw db now).2 = Except.ok () →
        ∃ q, lookupKey (add_player l0 pid2 nm dw db now).1.players pid2
            = some q
          ∧ q.is_reloading = false
          ∧ pid2 ∈ (add_player l0 pid2 nm dw db now).1.dirty_players
          ∧ lookupKey (add_player l0 pid2 nm dw db now).1.last_sync_state
              pid2 = lookupKey l0.last_sync_state pid2)) :=
  ⟨⟨by simp [lobbyDIRTY], by simp [lobbyDIRTY], rfl, rfl⟩,
    C10_fresh_reload_event lobbyDIRTY 1 playerTEST
      (by simp [lobbyDIRTY]) (by simp [lobbyDIRTY]) rfl rfl⟩

theorem getLast?_cons_or {α : Type} (a : α) (l : List α) :
    (a :: l).getLast? = (l.getLast?).or (some a) := by
  induction l generalizing a with
  | nil => rfl
  | cons b t ih =>
    rw [List.getLast?_cons_cons, ih b]
    cases ht : t.getLast? <;> rfl

theorem coalesceGo_structure (cmds : List LobbyCommand) :
    ∀ (latest : List (Nat × LobbyCommand)) (others : List LobbyCommand),
    coalesceGo cmds latest others =
      others ++ cmds.filter (fun c => !(isPos c)) ++
        (finalLatest cmds latest).map Prod.snd := by
  induction cmds with
  | nil =>
    intro latest others
    simp [coalesceGo, finalLatest]
  | cons c rest ih =>
    intro latest others
    cases hc : posPlayer? c with
    | some pid =>
      have hpos : isPos c = true := by simp [isPos, hc]
      simp only [coalesceGo, finalLatest, hc, ih, List.filter_cons, hpos]
      rfl
    | none =>
      have hpos : isPos c = false := by simp [isPos, hc]
      simp only [coalesceGo, finalLatest, hc, ih, List.filter_cons, hpos]
      simp

theorem mem_keys_removeKey {α : Type} (m : List (Nat × α)) (k j : Nat)
    (h : j ∈ (removeKey m k).map Prod.fst) : j ∈ m.map Prod.fst := by
  obtain ⟨e, he, hej⟩ := List.mem_map.mp h
  exact List.mem_map.mpr ⟨e, mem_removeKey m k e he, hej⟩

theorem not_mem_keys_removeKey_self {α : Type} (m : List (Nat × α))
    (k : Nat) : k ∉ (removeKey m k).map Prod.fst := by
  induction m with
  | nil => simp [removeKey]
  | cons e rest ih =>
    by_cases he : e.1 = k
    · simpa [removeKey, he] using ih
    · simp only [removeKey, if_neg he, List.map_cons, List.mem_cons]
      intro h
      rcases h with h | h
      · exact he h.symm
      · exact ih h

theorem keysND_removeKey {α : Type} (m : List (Nat × α)) (k : Nat)
    (h : keysND m) : keysND (removeKey m k) := by
  induction m with
  | nil => exact h
  | cons e rest ih =>
    rw [keysND, List.map_cons, List.nodup_cons] at h
    by_cases he : e.1 = k
    · simp only [removeKey, if_pos he]
      exact ih h.2
    · rw [keysND, removeKey, if_neg he, List.map_cons, List.nodup_cons]
      exact ⟨fun hc => h.1 (mem_keys_removeKey rest k e.1 hc), ih h.2⟩

theorem keysND_insertKey {α : Type} (m : List (Nat × α)) (k : Nat) (v : α)
    (h : keysND m) : keysND (insertKey m k v) := by
  rw [keysND, insertKey, List.map_append, List.nodup_append]
  refine ⟨keysND_removeKey m k h, by simp, ?_⟩
  intro j hj hj2
  simp at hj2
  exact not_mem_keys_removeKey_self m k (hj2 ▸ hj)

theorem finalLatest_entries (cmds : List LobbyCommand) :
    ∀ latest : List (Nat × LobbyCommand),
    (∀ e ∈ latest, posPlayer? (e : Nat × LobbyCommand).2 = some e.1) →
    ∀ e ∈ finalLatest cmds latest, posPlayer? (e : Nat × LobbyCommand).2 = some e.1 := by
  induction cmds with
  | nil =>
    intro latest hwf
    exact hwf
  | cons c rest ih =>
    intro latest hwf
    cases hc : posPlayer? c with
    | some pid =>
      simp only [finalLatest, hc]
      apply ih
      intro e he
      rcases mem_insertKey _ _ _ _ he with h | h
      · exact hwf e h
      · rw [h]
        exact hc
    | none =>
      simp only [finalLatest, hc]
      exact ih latest hwf

theorem finalLatest_keysND (cmds : List LobbyCommand) :
    ∀ latest : List (Nat × LobbyCommand),
    keysND latest → keysND (finalLatest cmds latest) := by
  induction cmds with
  | nil =>
    intro latest h
    exact h
  | cons c rest ih =>
    intro latest h
    cases hc : posPlayer? c with
    | some pid =>
      simp only [finalLatest, hc]
      exact ih _ (keysND_insertKey latest pid c h)
    | none =>
      simp only [finalLatest, hc]
      exact ih latest h

theorem lookupKey_finalLatest (cmds : List LobbyCommand) (pid : Nat) :
    ∀ latest : List (Nat × LobbyCommand),
    lookupKey (finalLatest cmds latest) pid =
      ((cmds.filter (isPosFor pid)).getLast?).or (lookupKey latest pid) := by
  induction cmds with
  | nil =>
    intro latest
    rfl
  | cons c rest ih =>
    intro latest
    cases hc : posPlayer? c with
    | some pid2 =>
      by_cases hpid : pid2 = pid
      · subst hpid
        have hfor : isPosFor pid2 c = true := by simp [isPosFor, hc]
        simp only [finalLatest, hc, List.filter_cons, hfor, if_pos]
        rw [ih (insertKey latest pid2 c),
          lookupKey_insertKey_self latest pid2 c, getLast?_cons_or]
        cases hgl : (List.filter (isPosFor pid2) rest).getLast? <;> rfl
      · have hfor : isPosFor pid c = false := by
          simp [isPosFor, hc, hpid]
        simp only [finalLatest, hc, List.filter_cons, hfor]
        rw [ih (insertKey latest pid2 c),
          lookupKey_insertKey_ne latest pid2 pid c
            (fun hcc => hpid hcc.symm)]
        simp
    | none =>
      have hfor : isPosFor pid c = false := by simp [isPosFor, hc]
      simp only [finalLatest, hc, List.filter_cons, hfor]
      exact ih latest

theorem filter_map_snd_eq_lookup (m : List (Nat × LobbyCommand)) (pid : Nat)
    (hwf : ∀ e ∈ m, posPlayer? (e : Nat × LobbyCommand).2 = some e.1)
    (hnd : keysND m) :
    (m.map Prod.snd).filter (isPosFor pid) = (lookupKey m pid).toList := by
  induction m with
  | nil => rfl
  | cons e rest ih =>
    obtain ⟨a, b⟩ := e
    have hb : posPlayer? b = some a := hwf (a, b) (List.mem_cons_self _ _)
    rw [keysND, List.map_cons, List.nodup_cons] at hnd
    by_cases ha : a = pid
    · subst ha
      have hfor : isPosFor a b = true := by simp [isPosFor, hb]
      have hnil : (rest.map Prod.snd).filter (isPosFor a) = [] := by
        apply List.filter_eq_nil_iff.mpr
        intro c hc
        obtain ⟨e2, he2, hec⟩ := List.mem_map.mp hc
        have hwf2 := hwf e2 (List.mem_cons_of_mem _ he2)
        have hne : e2.1 ≠ a := by
          intro hc2
          exact hnd.1 (hc2 ▸ List.mem_map.mpr ⟨e2, he2, rfl⟩)
        rw [← hec]
        simp [isPosFor, hwf2, hne]
      rw [List.map_cons, List.filter_cons, if_pos (by rw [hfor]), hnil]
      simp [lookupKey]
    · have hfor : isPosFor pid b = false := by simp [isPosFor, hb, ha]
      rw [List.map_cons, List.filter_cons]
      simp only [hfor, Bool.false_eq_true, if_false, lookupKey, if_neg ha]
      exact ih (fun e2 he2 => hwf e2 (List.mem_cons_of_mem _ he2)) hnd.2

/-- Claim C2: one tick's drain keeps every non-position command in
arrival order (none is lost to coalescing), keeps exactly one
PositionUpdate per player — the latest by arrival — and emits all
non-position commands before the surviving position updates. -/
theorem C2_drain_coalesce (cmds : List LobbyCommand) :
    (drain_and_coalesce cmds).filter (fun c => !(isPos c)) =
        cmds.filter (fun c => !(isPos c))
    ∧ (∀ pid : Nat, (drain_and_coalesce cmds).filter (isPosFor pid) =
        ((cmds.filter (isPosFor pid)).getLast?).toList)
    ∧ (∃ ps : List LobbyCommand,
        drain_and_coalesce cmds = cmds.filter (fun c => !(isPos c)) ++ ps
        ∧ ∀ c ∈ ps, isPos c = true) := by
  have hstruct := coalesceGo_structure cmds [] []
  have hwf : ∀ e ∈ finalLatest cmds [],
      posPlayer? (e : Nat × LobbyCommand).2 = some e.1 :=
    finalLatest_entries cmds [] (by simp)
  have hnd : keysND (finalLatest cmds []) :=
    finalLatest_keysND cmds [] (by simp [keysND])
  have hposvals : ∀ c ∈ (finalLatest cmds []).map Prod.snd,
      isPos c = true := by
    intro c hc
    obtain ⟨e, he, hec⟩ := List.mem_map.mp hc
    have hw := hwf e he
    rw [← hec]
    simp [isPos, hw]
  refine ⟨?_, ?_, ?_⟩
  · rw [drain_and_coalesce, hstruct, List.nil_append, List.filter_append]
    have h1 : (cmds.filter (fun c => !(isPos c))).filter
        (fun c => !(isPos c)) = cmds.filter (fun c => !(isPos c)) := by
      apply List.filter_eq_self.mpr
      intro c hc
      exact (List.mem_filter.mp hc).2
    have h2 : ((finalLatest cmds []).map Prod.snd).filter
        (fun c => !(isPos c)) = [] := by
      apply List.filter_eq_nil_iff.mpr
      intro c hc
      simp [hposvals c hc]
    rw [h1, h2, List.append_nil]
  · intro pid
    rw [drain_and_coalesce, hstruct, List.nil_append, List.filter_append]
    have h1 : (cmds.filter (fun c => !(isPos c))).filter (isPosFor pid)
        = [] := by
      apply List.filter_eq_nil_iff.mpr
      intro c hc
      have hnp := (List.mem_filter.mp hc).2
      intro hfor
      have : isPos c = true := by
        simp only [isPosFor, decide_eq_true_eq] at hfor
        simp [isPos, hfor]
      rw [this] at hnp
      exact absurd hnp (by simp)
    rw [h1, List.nil_append,
      filter_map_snd_eq_lookup (finalLatest cmds []) pid hwf hnd,
      lookupKey_finalLatest cmds pid []]
    cases hgl : (cmds.filter (isPosFor pid)).getLast? <;> rfl
  · refine ⟨(finalLatest cmds []).map Prod.snd, ?_, hposvals⟩
    rw [drain_and_coalesce, hstruct, List.nil_append]

end GunGame
